import Mathlib

/-!
Shallow embedding of the zapai-dvm bot core in Lean 4, together with proofs
about the embedded operations.  Each definition mirrors one JavaScript
function of the repository; timestamps are milliseconds as naturals, JS
numbers that may be NaN are `Option Int` (`none` = NaN), fractional token
counts are rationals, and external effects (relay publishes, AI completions,
signatures, random draws, generated ids) are threaded as explicit inputs or
recorded as explicit outputs.
-/

namespace ZapAI

/-! ### JavaScript-style primitives -/

/-- Model of a JS number restricted to the integer-or-NaN values that arise
in the accounting paths: `none` stands for NaN. -/
abbrev JsNum := Option Int

/-- JS `+` on numbers: any NaN operand yields NaN. -/
def jsAdd : JsNum → JsNum → JsNum
  | some a, some b => some (a + b)
  | _, _ => none

/-- JS `-` on numbers: any NaN operand yields NaN. -/
def jsSub : JsNum → JsNum → JsNum
  | some a, some b => some (a - b)
  | _, _ => none

/-- JS `<` on numbers: any comparison with NaN is false. -/
def jsLtNum : JsNum → JsNum → Bool
  | some a, some b => decide (a < b)
  | _, _ => false

/-- JS `x || 0` on a number: NaN (and 0 itself) are falsy, so NaN collapses
to 0 and every other value passes through. -/
def jsOrZero : JsNum → Int
  | some a => a
  | none => 0

/-- JS strict equality `x === n` against an integer literal: NaN compares
unequal to everything. -/
def jsEqNum (x : JsNum) (n : Int) : Bool :=
  match x with
  | some a => decide (a = n)
  | none => false

/-- Characters matched by the JS regex class `\s` (ASCII whitespace plus the
Unicode space separators that `trim` and `split(/\s+/)` treat as spaces). -/
def jsIsWhitespace (c : Char) : Bool :=
  c = ' ' || c = '\t' || c = '\n' || c = '\r' ||
  c.val = 11 || c.val = 12 || c.val = 0xa0 || c.val = 0x1680 ||
  (0x2000 ≤ c.val && c.val ≤ 0x200a) ||
  c.val = 0x2028 || c.val = 0x2029 || c.val = 0x202f ||
  c.val = 0x205f || c.val = 0x3000 || c.val = 0xfeff

/-- ASCII lowering of one character; the repository only ever lowercases
hex pubkeys and user-typed ASCII text. -/
def asciiLower (c : Char) : Char :=
  if 'A' ≤ c ∧ c ≤ 'Z' then Char.ofNat (c.toNat + 32) else c

/-- JS `String.prototype.toLowerCase` restricted to ASCII case mapping. -/
def jsToLower (s : String) : String :=
  String.mk (s.data.map asciiLower)

/-- JS `String.prototype.trim`: strip leading and trailing whitespace. -/
def jsTrim (s : String) : String :=
  String.mk (((s.data.dropWhile jsIsWhitespace).reverse.dropWhile jsIsWhitespace).reverse)

/-- JS string truthiness: the empty string is falsy. -/
def jsStrTruthy (s : String) : Bool := s ≠ ""

/-- Decimal digits consumed by `parseInt`. -/
def digitVal (c : Char) : Option Nat :=
  if '0' ≤ c ∧ c ≤ '9' then some (c.toNat - '0'.toNat) else none

/-- Accumulate a run of leading decimal digits. -/
def parseDigits : List Char → Nat → Option Nat → Option Nat
  | [], _, acc => acc
  | c :: rest, base, acc =>
    match digitVal c with
    | some d => parseDigits rest base (some ((acc.getD 0) * 10 + d))
    | none => acc

/-- JS `parseInt(str)` (radix 10): skip leading whitespace, read an optional
sign and then the longest run of leading decimal digits; NaN (`none`) when no
digit is found.  (The hexadecimal `0x` form never occurs in amount tags.) -/
def parseIntJs (s : String) : JsNum :=
  let t := s.data.dropWhile jsIsWhitespace
  match t with
  | '-' :: rest => (parseDigits rest 10 none).map (fun n => -(n : Int))
  | '+' :: rest => (parseDigits rest 10 none).map (fun n => (n : Int))
  | _ => (parseDigits t 10 none).map (fun n => (n : Int))

/-- JS `Math.floor(x / 1000)` on an integer-or-NaN value: exact flooring
division toward minus infinity, NaN propagating. -/
def jsFloorDiv1000 : JsNum → JsNum
  | some a => some (Int.fdiv a 1000)
  | none => none

/-! ### Association-list store primitives

The embedded LMDB stores are finite maps; `db.get` is `alookup` and
`db.put` is `aset` (overwrite or insert). -/

def alookup {α β : Type} [DecidableEq α] : List (α × β) → α → Option β
  | [], _ => none
  | (k, v) :: rest, a => if k = a then some v else alookup rest a

def aset {α β : Type} [DecidableEq α] : List (α × β) → α → β → List (α × β)
  | [], a, b => [(a, b)]
  | (k, v) :: rest, a, b => if k = a then (a, b) :: rest else (k, v) :: aset rest a b

/-! ### Circuit breaker (src/circuitbreaker.js)

The breaker is a record of its configuration and mutable fields; the
wrapped call is modelled by the outcome the protected function would have
produced (a timeout of `executeWithTimeout` counts as a failing outcome).
Log lines and the `stats` counters are elided; they do not feed back into
control flow. -/

inductive BState
  | closed
  | opened
  | halfOpen
deriving DecidableEq, Repr

structure Breaker where
  failureThreshold : Nat
  successThreshold : Nat
  timeout : Nat
  resetTimeout : Nat
  state : BState
  failures : Nat
  successes : Nat
  nextAttempt : Nat
deriving DecidableEq, Repr

/-- Breaker constructor: counters zeroed, `nextAttempt = Date.now()`. -/
def Breaker.init (failureThreshold successThreshold timeout resetTimeout now : Nat) : Breaker :=
  { failureThreshold := failureThreshold
    successThreshold := successThreshold
    timeout := timeout
    resetTimeout := resetTimeout
    state := .closed
    failures := 0
    successes := 0
    nextAttempt := now }

/-- `open()`: block requests and start the reset timer. -/
def Breaker.openCb (b : Breaker) (now : Nat) : Breaker :=
  if b.state = .opened then b
  else { b with state := .opened, nextAttempt := now + b.resetTimeout }

/-- `close()`: allow requests and reset both counters. -/
def Breaker.closeCb (b : Breaker) : Breaker :=
  if b.state = .closed then b
  else { b with state := .closed, failures := 0, successes := 0 }

/-- `onSuccess()`: reset the failure streak and, in HALF_OPEN, count the
success and close once the success threshold is reached. -/
def Breaker.onSuccess (b : Breaker) : Breaker :=
  let b1 := { b with failures := 0 }
  if b1.state = .halfOpen then
    let b2 := { b1 with successes := b1.successes + 1 }
    if b2.successThreshold ≤ b2.successes then b2.closeCb else b2
  else b1

/-- `onFailure()`: extend the failure streak, clear the success streak and
open the circuit once the failure threshold is reached. -/
def Breaker.onFailure (b : Breaker) (now : Nat) : Breaker :=
  let b1 := { b with failures := b.failures + 1, successes := 0 }
  if b1.failureThreshold ≤ b1.failures then b1.openCb now else b1

/-- Outcome of the protected function (`err` also covers the
`executeWithTimeout` timeout rejection). -/
inductive FnOut
  | ok (v : String)
  | err
deriving DecidableEq, Repr

/-- What `execute` hands back to its caller. -/
inductive ExecResult
  | value (v : String)
  | fellBack (v : String)
  | thrown
deriving DecidableEq, Repr

structure ExecOut where
  result : ExecResult
  invoked : Bool
  breaker : Breaker
deriving DecidableEq, Repr

/-- Body of `execute` once the call is allowed through: run `fn`, route the
outcome through `onSuccess` / `onFailure`, and use the fallback value on
failure when one was supplied. -/
def Breaker.runProtected (b : Breaker) (now : Nat) (fn : FnOut) (fallback : Option String) :
    ExecOut :=
  match fn with
  | .ok v => ⟨.value v, true, b.onSuccess⟩
  | .err =>
    let b2 := b.onFailure now
    match fallback with
    | some v => ⟨.fellBack v, true, b2⟩
    | none => ⟨.thrown, true, b2⟩

/-- `execute(fn, fallback)` at invocation time `now`: an OPEN breaker
rejects calls before `nextAttempt` (fallback value or throw) and moves to
HALF_OPEN on the first call at or after it; otherwise the call runs. -/
def Breaker.execute (b : Breaker) (now : Nat) (fn : FnOut) (fallback : Option String) :
    ExecOut :=
  if b.state = .opened then
    if now < b.nextAttempt then
      match fallback with
      | some v => ⟨.fellBack v, false, b⟩
      | none => ⟨.thrown, false, b⟩
    else
      Breaker.runProtected { b with state := .halfOpen } now fn fallback
  else
    Breaker.runProtected b now fn fallback

/-! ### GeminiAI.generateResponse retry wrapper (gemini.js)

The protected body `_generateResponseInternal` is the remote completion
call; its outcomes are supplied as a list consumed one entry per actual
invocation.  `Math.random()` draws are modelled by the index `r` (the
source computes `Math.floor(Math.random() * 3)`). -/

/-- The fixed fallback apology strings of `generateResponse` (the same
three strings appear in the breaker fallback thunk and in the
retries-exhausted branch). -/
def fallbackStrings : List String :=
  ["I\x27m currently experiencing high demand. Please try again in a moment.",
   "My AI service is temporarily busy. I\x27ll be back shortly!",
   "I\x27m processing many requests right now. Please wait a moment and try again."]

/-- One fallback string chosen by a random draw. -/
def apology (r : Nat) : String := (fallbackStrings.get? (r % 3)).getD ""

/-- Observable outcome of one `generateResponse` call: the returned string
(`none` only if the loop could fall through, which it cannot), how many
times the protected body ran, the `fallbacks` and `failed` stat
increments, and the backoff sleeps actually awaited. -/
structure GenOut where
  result : Option String
  invocations : Nat
  fallbacks : Nat
  failedStat : Nat
  sleeps : List Nat
  breaker : Breaker
deriving DecidableEq, Repr

/-- The retry loop of `generateResponse` (`maxRetries = 2`): on attempt
`> 0` sleep `min(1000·2^(attempt-1), 5000)` ms, then run the breaker with
the apology thunk as fallback; a thrown result is caught and retried until
`attempt = maxRetries`, when an apology is returned and `failed`
incremented.  `fuel` is `maxRetries + 1 - attempt`. -/
def generateLoop : Nat → Nat → Breaker → Nat → List FnOut → Nat → GenOut
  | 0, _, b, _, _, _ => ⟨none, 0, 0, 0, [], b⟩
  | fuel + 1, attempt, b, now, outs, r =>
    let backoff := if 0 < attempt then min (1000 * 2 ^ (attempt - 1)) 5000 else 0
    let sleeps : List Nat := if 0 < attempt then [backoff] else []
    let now2 := now + backoff
    let eo := b.execute now2 (outs.headD .err) (some (apology r))
    let used : Nat := if eo.invoked then 1 else 0
    let outs2 := if eo.invoked then outs.tail else outs
    match eo.result with
    | .value v => ⟨some v, used, 0, 0, sleeps, eo.breaker⟩
    | .fellBack v => ⟨some v, used, 1, 0, sleeps, eo.breaker⟩
    | .thrown =>
      if attempt = 2 then
        ⟨some (apology r), used, 0, 1, sleeps, eo.breaker⟩
      else
        let rest := generateLoop fuel (attempt + 1) eo.breaker now2 outs2 r
        ⟨rest.result, used + rest.invocations, rest.fallbacks,
         rest.failedStat, sleeps ++ rest.sleeps, rest.breaker⟩

/-- `generateResponse`: run the retry loop from attempt 0. -/
def generateResponse (b : Breaker) (now : Nat) (outs : List FnOut) (r : Nat) : GenOut :=
  generateLoop 3 0 b now outs r

/-- The breaker configuration `GeminiAI` constructs: thresholds 3 and 1,
timeout 60 s, reset timeout 10 s. -/
def geminiBreaker (now : Nat) : Breaker := Breaker.init 3 1 60000 10000 now

/-! ### Rate limiter (ratelimiter.js)

Token counts are fractional (lazy refill multiplies elapsed ms by the
refill rate), so buckets hold rationals. -/

structure TokenBucket where
  tokens : ℚ
  lastRefill : ℚ
deriving DecidableEq, Repr

structure RateLimiter where
  maxTokens : ℚ
  refillRate : ℚ
  globalBucket : TokenBucket
  buckets : List (String × TokenBucket)
deriving DecidableEq, Repr

/-- `refillBucket`: lazily add `elapsed/1000 · refillRate` tokens, capped
at `maxTokens`, and stamp the refill time. -/
def refillBucket (rl : RateLimiter) (b : TokenBucket) (now : ℚ) : TokenBucket :=
  let timePassed : ℚ := now - b.lastRefill
  let tokensToAdd : ℚ := timePassed / 1000 * rl.refillRate
  { tokens := min rl.maxTokens (b.tokens + tokensToAdd), lastRefill := now }

/-- `getRetryAfter`: seconds until one token is available —
`max(1, ceil((1 - tokens) / refillRate))`; note the hard-coded `1`. -/
def getRetryAfter (rl : RateLimiter) (b : TokenBucket) : Int :=
  let tokensNeeded : ℚ := 1 - b.tokens
  let secondsToWait : Int := ⌈tokensNeeded / rl.refillRate⌉
  max 1 secondsToWait

/-- `checkGlobalLimit`: refill the global bucket, deduct `cost` when
enough tokens are present. -/
def checkGlobalLimit (rl : RateLimiter) (now : ℚ) (cost : ℚ) : Bool × RateLimiter :=
  let g := refillBucket rl rl.globalBucket now
  if cost ≤ g.tokens then
    (true, { rl with globalBucket := { g with tokens := g.tokens - cost } })
  else
    (false, { rl with globalBucket := g })

/-- `getUserBucket`: create the bucket full on first sight, refill it and
store the refilled bucket back. -/
def getUserBucket (rl : RateLimiter) (userId : String) (now : ℚ) :
    TokenBucket × RateLimiter :=
  let raw := (alookup rl.buckets userId).getD { tokens := rl.maxTokens, lastRefill := now }
  let b := refillBucket rl raw now
  (b, { rl with buckets := aset rl.buckets userId b })

inductive LimitOutcome
  | allowed
  | denied (isGlobal : Bool) (retryAfter : Int)
deriving DecidableEq, Repr

/-- `checkLimit(userId, cost)`: global bucket first (a global denial
returns before the per-user bucket is even consulted), then the per-user
bucket. -/
def checkLimit (rl : RateLimiter) (userId : String) (cost : ℚ) (now : ℚ) :
    LimitOutcome × RateLimiter :=
  let gr := checkGlobalLimit rl now cost
  if gr.1 then
    let ub := getUserBucket gr.2 userId now
    if cost ≤ ub.1.tokens then
      let spent : TokenBucket := { ub.1 with tokens := ub.1.tokens - cost }
      (.allowed, { ub.2 with buckets := aset ub.2.buckets userId spent })
    else
      (.denied false (getRetryAfter ub.2 ub.1), ub.2)
  else
    (.denied true (getRetryAfter gr.2 gr.2.globalBucket), gr.2)

/-! ### Zap database (zapdb.js)

Balances live under `balance:<pubkey>`, zap records under
`zap:<sender>:<timestamp>`; both are modelled as association lists.  A
balance is a JS number and can become NaN or negative exactly where the
source lets it. -/

structure BalanceRec where
  pubkey : String
  balance : JsNum
  lastUpdated : Nat
deriving DecidableEq, Repr

structure ZapRec where
  sender : String
  amount : JsNum
  timestamp : Nat
  zapRequest : Option String
  zapReceipt : Option String
  bolt11 : Option String
  description : Option String
deriving DecidableEq, Repr

structure ZapDb where
  zaps : List ((String × Nat) × ZapRec)
  balances : List (String × BalanceRec)
deriving DecidableEq, Repr

/-- `addToBalance`: read the record (default balance 0), coerce a NaN
stored balance to 0 via `|| 0`, add the amount and store the result. -/
def ZapDb.addToBalance (db : ZapDb) (pubkey : String) (amount : JsNum) (now : Nat) :
    ZapDb × JsNum :=
  let cur := (alookup db.balances pubkey).getD
    { pubkey := pubkey, balance := some 0, lastUpdated := 0 }
  let newBal : JsNum := jsAdd (some (jsOrZero cur.balance)) amount
  let rec0 : BalanceRec := { pubkey := pubkey, balance := newBal, lastUpdated := now }
  ({ db with balances := aset db.balances pubkey rec0 }, newBal)

/-- `saveZap`: persist the zap record, then credit the sender. -/
def ZapDb.saveZap (db : ZapDb) (sender : String) (amount : JsNum)
    (zapRequest zapReceipt bolt11 description : Option String) (now : Nat) : ZapDb :=
  let zrec : ZapRec :=
    { sender := sender, amount := amount, timestamp := now,
      zapRequest := zapRequest, zapReceipt := zapReceipt,
      bolt11 := bolt11, description := description }
  let db1 := { db with zaps := aset db.zaps (sender, now) zrec }
  (db1.addToBalance sender amount now).1

/-- `getBalance`: 0 when absent, stored value with NaN coerced to 0 via
`|| 0` otherwise. -/
def ZapDb.getBalance (db : ZapDb) (pubkey : String) : Int :=
  match alookup db.balances pubkey with
  | none => 0
  | some r => jsOrZero r.balance

inductive DeductResult
  | insufficient
  | ok (newBalance : JsNum)
deriving DecidableEq, Repr

/-- `deductFromBalance`: refuse when the stored balance compares below the
amount (a NaN balance never compares below and falls through), otherwise
store the difference. -/
def ZapDb.deductFromBalance (db : ZapDb) (pubkey : String) (amount : Int) (now : Nat) :
    ZapDb × DeductResult :=
  let cur := (alookup db.balances pubkey).getD
    { pubkey := pubkey, balance := some 0, lastUpdated := 0 }
  if jsLtNum cur.balance (some amount) then
    (db, .insufficient)
  else
    let newBal := jsSub cur.balance (some amount)
    let rec0 : BalanceRec := { pubkey := pubkey, balance := newBal, lastUpdated := now }
    ({ db with balances := aset db.balances pubkey rec0 }, .ok newBal)

/-! ### Events and the zap receipt handler (bot.js) -/

structure Event where
  id : String
  pubkey : String
  kind : Nat
  tags : List (List String)
  content : String
deriving DecidableEq, Repr

/-- `tags.find(tag => tag[0] === name)`. -/
def findTag (tags : List (List String)) (name : String) : Option (List String) :=
  tags.find? (fun t => t.head? = some name)

/-- `tag[1]` guarded by JS truthiness (`t && t[1]`): the payload string
when present and non-empty. -/
def tagPayload (t : List String) : Option String :=
  match t.get? 1 with
  | some s => if jsStrTruthy s then some s else none
  | none => none

/-- JSON.parse of a zap request description is an external primitive; its
result is supplied alongside the event (`none` models a parse throw). -/
structure ZapRequest where
  pubkey : Option String
  id : Option String
  tags : List (List String)
deriving DecidableEq, Repr

inductive ZapAction
  | dropped
  | credited (sender : String) (amount : JsNum) (newBalance : Int)
deriving DecidableEq, Repr

/-- `handleZapReceipt`: locate the `bolt11` and `description` tags, take
the sender from the embedded request pubkey (falling back to the receipt
author), extract the millisat amount from the request `amount` tag (with
fallback to the receipt amount tag when the extracted amount equals 0),
truncate to sats and, unless the result equals 0, persist the zap record
and credit the sender.  The balance publishes are reported through the
returned `ZapAction` (the publish itself is an external relay effect). -/
def handleZapReceipt (db : ZapDb) (e : Event) (parsedDescription : Option ZapRequest)
    (now : Nat) : ZapDb × ZapAction :=
  let bolt11 := (findTag e.tags "bolt11").bind (fun t => t.get? 1)
  let descTag := (findTag e.tags "description").bind tagPayload
  let extracted :
      Option String × String × JsNum :=
    match descTag with
    | none => (none, e.pubkey, (some 0 : JsNum))
    | some _ =>
      match parsedDescription with
      | none => (none, e.pubkey, (some 0 : JsNum))
      | some zr =>
        let sender := match zr.pubkey with
          | some p => if jsStrTruthy p then p else e.pubkey
          | none => e.pubkey
        let amount : JsNum :=
          match (findTag zr.tags "amount").bind tagPayload with
          | some a => jsFloorDiv1000 (parseIntJs a)
          | none => some 0
        let amount :=
          if jsEqNum amount 0 then
            match (findTag e.tags "amount").bind tagPayload with
            | some a => jsFloorDiv1000 (parseIntJs a)
            | none => amount
          else amount
        (zr.id, sender, amount)
  let zapReqId := extracted.1
  let sender := extracted.2.1
  let amount := extracted.2.2
  if jsEqNum amount 0 then
    (db, .dropped)
  else
    let db1 := db.saveZap sender amount zapReqId (some e.id) bolt11 descTag now
    let bal := db1.getBalance sender
    (db1, .credited sender amount bal)

/-! ### Conversation database (database.js)

Session metadata, per-session message logs, processed-event markers and the
per-user session index are the four key families of the LMDB store. -/

inductive MsgType
  | question
  | response
  | balanceInfo
  | system
deriving DecidableEq, Repr

/-- Subset of the relay profile metadata carried on message records (the
remaining fields never influence control flow). -/
structure UserMeta where
  name : Option String
  displayName : Option String
  about : Option String
  nip05 : Option String
deriving DecidableEq, Repr

structure MessageRecord where
  pubkey : String
  sessionId : String
  message : String
  isFromBot : Bool
  timestamp : Nat
  messageType : MsgType
  replyTo : Option String
  eventId : Option String
  eventKind : Option Nat
  userMetadata : Option UserMeta
deriving DecidableEq, Repr

structure SessionMeta where
  pubkey : String
  sessionId : String
  createdAt : Nat
  lastMessageAt : Nat
  messageCount : Nat
  origin : Option String
  label : Option String
  lastTouchedAt : Option Nat
deriving DecidableEq, Repr

structure Marker where
  sessionId : String
  timestamp : Nat
deriving DecidableEq, Repr

structure ConvDb where
  metas : List ((String × String) × SessionMeta)
  logs : List ((String × String) × List MessageRecord)
  markers : List (String × Marker)
  userSessions : List (String × List String)
deriving DecidableEq, Repr

def ConvDb.empty : ConvDb := ⟨[], [], [], []⟩

/-- `sanitizePubkey`: empty (falsy) input collapses to the empty string,
otherwise trim and lowercase. -/
def sanitizePubkey (pubkey : String) : String :=
  if pubkey = "" then "" else jsToLower (jsTrim pubkey)

/-- `sanitizeSessionId`: falsy input collapses to the empty string,
otherwise trim and keep the first 120 characters. -/
def sanitizeSessionId (sessionId : Option String) : String :=
  match sessionId with
  | none => ""
  | some s => if s = "" then "" else String.mk ((jsTrim s).data.take 120)

/-- JS truthiness of an optional string field. -/
def optTruthy (o : Option String) : Bool :=
  match o with
  | some s => s ≠ ""
  | none => false

/-- JS `x || null` on an optional string. -/
def jsOrNullStr (o : Option String) : Option String :=
  match o with
  | some s => if s = "" then none else some s
  | none => none

/-- JS `x || null` on an optional number (0 is falsy). -/
def jsOrNullNat (o : Option Nat) : Option Nat :=
  match o with
  | some 0 => none
  | some k => some k
  | none => none

structure EnsureOut where
  db : ConvDb
  sessionId : String
deriving Repr

/-- `ensureSession`: sanitize, pick the requested session id or the
synthesized fresh one (`session-<now>-<uuid>`, supplied externally as
`freshId`; the `metadata.fallbackId` alternative is never passed by
`saveMessage`), create metadata, an empty log and the user-session index
entry on first contact, and otherwise apply the dirty-field updates.  The
`touch` flag mirrors `metadata.touch !== false` (always `false` from
`saveMessage`). -/
def ensureSession (db : ConvDb) (pubkey : String) (requestedSessionId : Option String)
    (source label : Option String) (touch : Bool) (now : Nat) (freshId : String) :
    Except String EnsureOut :=
  let npk := sanitizePubkey pubkey
  if npk = "" then .error "Valid pubkey is required"
  else
    let sid0 := sanitizeSessionId requestedSessionId
    let sessionId := if sid0 ≠ "" then sid0 else freshId
    let key := (npk, sessionId)
    match alookup db.metas key with
    | none =>
      let meta : SessionMeta :=
        { pubkey := npk, sessionId := sessionId, createdAt := now, lastMessageAt := now,
          messageCount := 0, origin := source, label := label, lastTouchedAt := none }
      let db1 := { db with metas := aset db.metas key meta, logs := aset db.logs key [] }
      let us := (alookup db1.userSessions npk).getD []
      let db2 :=
        if sessionId ∈ us then db1
        else { db1 with userSessions := aset db1.userSessions npk (us ++ [sessionId]) }
      .ok { db := db2, sessionId := sessionId }
    | some meta =>
      let d1 := optTruthy source && !(optTruthy meta.origin)
      let m1 := if d1 then { meta with origin := source } else meta
      let d2 := optTruthy label && decide (m1.label ≠ label)
      let m2 := if d2 then { m1 with label := label } else m1
      let d3 := touch
      let m3 := if d3 then { m2 with lastTouchedAt := some now } else m2
      let db1 := if d1 || d2 || d3 then { db with metas := aset db.metas key m3 } else db
      .ok { db := db1, sessionId := sessionId }

/-- `metadata.eventKind === 4 ? dm : === 1 ? public : eventKind ?
kind-N : null` (kind 0 is falsy). -/
def kindSource (k : Option Nat) : Option String :=
  match k with
  | some 4 => some "dm"
  | some 1 => some "public"
  | some 0 => none
  | some k => some ("kind-" ++ toString k)
  | none => none

structure SaveMeta where
  eventId : Option String
  eventKind : Option Nat
  messageType : Option MsgType
  sessionId : Option String
  replyTo : Option String
  timestamp : Option Nat
  userMetadata : Option UserMeta
  messageSource : Option String
  sessionLabel : Option String
deriving DecidableEq, Repr

def SaveMeta.default0 : SaveMeta :=
  ⟨none, none, none, none, none, none, none, none, none⟩

inductive SaveResult
  | duplicate (sessionId : String) (timestamp : Nat)
  | saved (sessionId : String) (timestamp : Nat) (messageCount : Nat)
deriving DecidableEq, Repr

/-- The record `saveMessage` builds. -/
def buildRecord (npk sessionId content : String) (isFromBot : Bool) (md : SaveMeta)
    (timestamp : Nat) : MessageRecord :=
  { pubkey := npk, sessionId := sessionId, message := content,
    isFromBot := isFromBot, timestamp := timestamp,
    messageType := md.messageType.getD (if isFromBot then .response else .question),
    replyTo := jsOrNullStr md.replyTo, eventId := jsOrNullStr md.eventId,
    eventKind := jsOrNullNat md.eventKind, userMetadata := md.userMetadata }

/-- `if (messages.length > 1000) messages = messages.slice(-1000)`. -/
def truncate1000 (l : List MessageRecord) : List MessageRecord :=
  if 1000 < l.length then l.drop (l.length - 1000) else l

/-- The store writes of the non-duplicate path of `saveMessage`: the
truncated log, the processed-event marker (when an event id is present)
and the metadata counter update. -/
def commitSave (db : ConvDb) (npk sessionId : String) (newLog : List MessageRecord)
    (eid? : Option String) (timestamp : Nat) : ConvDb :=
  let key := (npk, sessionId)
  let db1 := { db with logs := aset db.logs key newLog }
  let db2 :=
    match eid? with
    | some eid =>
      let mk0 : Marker := { sessionId := sessionId, timestamp := timestamp }
      { db1 with markers := aset db1.markers eid mk0 }
    | none => db1
  match alookup db2.metas key with
  | some meta =>
    let meta1 := { meta with lastMessageAt := timestamp, messageCount := newLog.length }
    { db2 with metas := aset db2.metas key meta1 }
  | none => db2

/-- `saveMessage`: sanitize the pubkey (throwing on an empty result),
short-circuit on an existing processed-event marker for
`metadata.eventId`, ensure the session, append the record, truncate the
log to its most recent 1000 entries, write the processed-event marker and
update the session metadata counters. -/
def saveMessage (db : ConvDb) (pubkey message : String) (isFromBot : Bool)
    (md : SaveMeta) (now : Nat) (freshId : String) :
    Except String (ConvDb × SaveResult) :=
  let npk := sanitizePubkey pubkey
  if npk = "" then .error "Valid pubkey is required"
  else
    let content := message
    let timestamp := md.timestamp.getD now
    let eid? := jsOrNullStr md.eventId
    let dup : Option Marker :=
      match eid? with
      | some eid => alookup db.markers eid
      | none => none
    match dup with
    | some m => .ok (db, .duplicate m.sessionId m.timestamp)
    | none =>
      let source : Option String :=
        match jsOrNullStr md.messageSource with
        | some s => some s
        | none => kindSource md.eventKind
      match ensureSession db npk md.sessionId source md.sessionLabel false now freshId with
      | .error err => .error err
      | .ok eo =>
        let sessionId := eo.sessionId
        let rec0 := buildRecord npk sessionId content isFromBot md timestamp
        let key := (npk, sessionId)
        let oldLog := (alookup eo.db.logs key).getD []
        let newLog := truncate1000 (oldLog ++ [rec0])
        .ok (commitSave eo.db npk sessionId newLog eid? timestamp,
             .saved sessionId timestamp newLog.length)

structure HistoryItem where
  message : String
  isFromBot : Bool
  timestamp : Nat
  messageType : MsgType
deriving DecidableEq, Repr

def projectHistory (l : List MessageRecord) : List HistoryItem :=
  l.map (fun m =>
    { message := m.message, isFromBot := m.isFromBot,
      timestamp := m.timestamp, messageType := m.messageType })

/-- `messages.slice(-limit)` applied only when the list is longer than the
limit. -/
def lastN {α : Type} (n : Nat) (l : List α) : List α :=
  if n < l.length then l.drop (l.length - n) else l

/-- `getConversationBySession`: the tail of the session log, projected. -/
def getConversationBySession (db : ConvDb) (pubkey sessionId : String) (limit : Nat) :
    List HistoryItem :=
  let npk := sanitizePubkey pubkey
  if npk = "" then []
  else
    let sid := sanitizeSessionId (some sessionId)
    if sid = "" then []
    else projectHistory (lastN limit ((alookup db.logs (npk, sid)).getD []))

/-- Stable insertion by timestamp (JS `Array.prototype.sort` is stable and
the comparator is `a.timestamp - b.timestamp`). -/
def insertByTs (m : MessageRecord) : List MessageRecord → List MessageRecord
  | [] => [m]
  | x :: xs => if x.timestamp < m.timestamp then x :: insertByTs m xs else m :: x :: xs

def sortByTs (l : List MessageRecord) : List MessageRecord := l.foldr insertByTs []

/-- `getConversation`: concatenate the logs of every session of the user,
sort by timestamp, keep the tail, project. -/
def getConversation (db : ConvDb) (pubkey : String) (limit : Nat) : List HistoryItem :=
  let npk := sanitizePubkey pubkey
  if npk = "" then []
  else
    let sids := (alookup db.userSessions npk).getD []
    if sids = [] then []
    else
      let allMessages := sids.foldl
        (fun acc sid => acc ++ (alookup db.logs (npk, sid)).getD []) []
      projectHistory (lastN limit (sortByTs allMessages))

/-! ### Balance-intent classifier (bot.js)

`levenshteinDistance` is the dynamic-programming matrix computed row by
row; `isBalanceRequest` is the exclusion pass, the fuzzy word loop and the
explicit regex patterns. -/

/-- One inner row of the edit-distance matrix: walking `s2`, `prev` holds
`matrix[i-1][j-1], matrix[i-1][j], …` and `left` is `matrix[i][j-1]`. -/
def levRowAux (c1 : Char) : List Char → List Nat → Nat → List Nat
  | c2 :: s2rest, pj1 :: pj :: prest, left =>
    let cost := if c1 = c2 then 0 else 1
    let v := min (pj + 1) (min (left + 1) (pj1 + cost))
    v :: levRowAux c1 s2rest (pj :: prest) v
  | _, _, _ => []

/-- Fold the rows of the matrix over `s1`; row `i` starts with
`matrix[i][0] = i`. -/
def levRows : List Char → List Char → List Nat → Nat → List Nat
  | [], _, prev, _ => prev
  | c1 :: s1rest, s2, prev, i =>
    levRows s1rest s2 ((i + 1) :: levRowAux c1 s2 prev (i + 1)) (i + 1)

/-- `levenshteinDistance(str1, str2)`: bottom-right entry of the matrix. -/
def levenshteinDistance (s1 s2 : String) : Nat :=
  (levRows s1.data s2.data (List.range (s2.data.length + 1)) 0).getLastD 0

/-- Does `pat` occur as a prefix of `l`? -/
def startsWithList (l pat : List Char) : Bool :=
  match pat, l with
  | [], _ => true
  | _ :: _, [] => false
  | p :: ps, c :: cs => c = p && startsWithList cs ps

/-- JS `String.prototype.includes`. -/
def containsList (sub : List Char) : List Char → Bool
  | [] => startsWithList [] sub
  | c :: rest => startsWithList (c :: rest) sub || containsList sub rest

def jsIncludes (s sub : String) : Bool := containsList sub.data s.data

/-- `normalizedMsg.match(/\?$/)`. -/
def jsEndsWithQm (s : String) : Bool := s.data.getLast? = some '?'

/-- `split(/\s+/)`: runs of whitespace separate the fields (a leading or
trailing run contributes an empty field, exactly as in JS); the flag marks
that the current whitespace run already emitted its field. -/
def splitWsAux : List Char → List Char → Bool → List (List Char)
  | [], cur, _ => [cur.reverse]
  | c :: rest, cur, skipping =>
    if jsIsWhitespace c then
      if skipping then splitWsAux rest cur true
      else cur.reverse :: splitWsAux rest [] true
    else splitWsAux rest (c :: cur) false

def jsSplitWs (s : String) : List String := (splitWsAux s.data [] false).map String.mk

/-- Consume a literal pattern from the front of the input. -/
def litp : List Char → List Char → Option (List Char)
  | [], l => some l
  | _ :: _, [] => none
  | p :: ps, c :: cs => if c = p then litp ps cs else none

/-- Consume `\s+` greedily. -/
def wsPlus : List Char → Option (List Char)
  | c :: rest => if jsIsWhitespace c then some (rest.dropWhile jsIsWhitespace) else none
  | [] => none

/-- Consume one character from a regex character class. -/
def charClass (cs : List Char) : List Char → Option (List Char)
  | c :: rest => if c ∈ cs then some rest else none
  | [] => none

/-- Accept `\??$`: the remainder is empty or a lone question mark. -/
def optQmEnd : List Char → Bool
  | [] => true
  | ['?'] => true
  | _ => false

/-- Does the predicate hold at some suffix (unanchored regex search)? -/
def anySuffix (p : List Char → Bool) : List Char → Bool
  | [] => p []
  | c :: rest => p (c :: rest) || anySuffix p rest

/-- `/how\s+(much|many)\s+(sats?|credit|balance)/` at one position. -/
def howMuchAt (l : List Char) : Bool :=
  match litp "how".data l with
  | none => false
  | some r1 =>
    match wsPlus r1 with
    | none => false
    | some r2 =>
      match (litp "much".data r2).orElse (fun _ => litp "many".data r2) with
      | none => false
      | some r3 =>
        match wsPlus r3 with
        | none => false
        | some r4 =>
          (litp "sat".data r4).isSome || (litp "credit".data r4).isSome ||
            (litp "balance".data r4).isSome

/-- `/<kw>\s+(my\s+)?(balance|credit|wallet)/` at one position. -/
def checkShowAt (kw : List Char) (l : List Char) : Bool :=
  match litp kw l with
  | none => false
  | some r1 =>
    match wsPlus r1 with
    | none => false
    | some r2 =>
      let kws := fun (r : List Char) =>
        (litp "balance".data r).isSome || (litp "credit".data r).isSome ||
          (litp "wallet".data r).isSome
      kws r2 ||
        (match (litp "my".data r2).bind wsPlus with
         | some r3 => kws r3
         | none => false)

/-- `/^(cr[eai]dit|wall[eai]t|sats?)\??$/` (with the backtracking on the
optional `s` of `sats?`). -/
def singleWordPat (s : String) : Bool :=
  let l := s.data
  let branch1 := ((litp "cr".data l).bind (charClass ['e', 'a', 'i'])).bind (litp "dit".data)
  let branch2 := ((litp "wall".data l).bind (charClass ['e', 'a', 'i'])).bind (litp "t".data)
  let branch3 : Option (List Char) :=
    match litp "sat".data l with
    | some rest =>
      match rest with
      | 's' :: r2 => if optQmEnd r2 then some r2 else some rest
      | _ => some rest
    | none => none
  match (branch1.orElse (fun _ => branch2)).orElse (fun _ => branch3) with
  | some r => optQmEnd r
  | none => false

def profileKeywords : List String :=
  ["identity", "nip05", "profile", "name", "who am i", "about me", "information about me"]

def targetWords : List String := ["balance", "credit", "wallet", "sats"]

/-- The six explicit patterns of `isBalanceRequest`, each applied to the
whole normalized message. -/
def balancePatterns (s : String) : Bool :=
  (s = "balance" || s = "balance?") ||
  (match (litp "my".data s.data).bind wsPlus with
   | some r => (litp "balance".data r).map optQmEnd |>.getD false
   | none => false) ||
  anySuffix howMuchAt s.data ||
  anySuffix (checkShowAt "check".data) s.data ||
  anySuffix (checkShowAt "show".data) s.data ||
  singleWordPat s

/-- `isBalanceRequest`: profile-keyword exclusion, then the fuzzy word
loop (distance within `Math.floor(0.3 · |target|)`, gated by a context
word or a one-word query at distance ≤ 1), then the explicit patterns.
`Math.floor(len * 0.3)` equals `len * 3 / 10` in natural division for
every target length in use. -/
def isBalanceRequest (message : String) : Bool :=
  if message = "" then false
  else
    let normalizedMsg := jsTrim (jsToLower message)
    if profileKeywords.any (fun k => jsIncludes normalizedMsg k) then false
    else
      let words := jsSplitWs normalizedMsg
      let contextOk :=
        jsIncludes normalizedMsg "my" || jsIncludes normalizedMsg "check" ||
        jsIncludes normalizedMsg "show" || jsIncludes normalizedMsg "what" ||
        jsIncludes normalizedMsg "how much" || jsIncludes normalizedMsg "how many" ||
        jsEndsWithQm normalizedMsg
      let fuzzyHit := words.any (fun w =>
        if w.length < 3 then false
        else targetWords.any (fun target =>
          let distance := levenshteinDistance w target
          let maxDistance := target.length * 3 / 10
          decide (distance ≤ maxDistance) &&
            (contextOk || (decide (words.length = 1) && decide (distance ≤ 1)))))
      if fuzzyHit then true
      else balancePatterns normalizedMsg

/-! ### Relay subscription loop (bot.js `listenToRelay`)

One iteration of the loop is driven by what the subscription stream does
next: deliver an event (which resets the consecutive-failure counter) or
exit (CLOSED frame, stream end or error).  The step returns the state
after the iteration together with the backoff sleep awaited before the
next reconnect, `none` when no reconnect follows. -/

structure RelayLoopState where
  attempts : Nat
  markedFailed : Bool
  exited : Bool
deriving DecidableEq, Repr

def RelayLoopState.init : RelayLoopState := ⟨0, false, false⟩

inductive RelayInput
  | eventDelivered
  | streamExit
deriving DecidableEq, Repr

/-- `this.maxReconnectAttempts`. -/
def maxReconnectAttempts : Nat := 5

/-- One observable step of `listenToRelay`. -/
def relayStep (s : RelayLoopState) (i : RelayInput) : RelayLoopState × Option Nat :=
  if s.exited then (s, none)
  else
    match i with
    | .eventDelivered => ({ s with attempts := 0 }, none)
    | .streamExit =>
      if maxReconnectAttempts ≤ s.attempts then
        ({ s with markedFailed := true, exited := true }, none)
      else
        ({ s with attempts := s.attempts + 1 },
         some (min (5000 * 2 ^ s.attempts) 60000))

/-- Iterated loop steps, collecting the reconnect delays. -/
def relayRun : RelayLoopState → List RelayInput → RelayLoopState × List (Option Nat)
  | s, [] => (s, [])
  | s, i :: is =>
    let (s1, d) := relayStep s i
    let (s2, ds) := relayRun s1 is
    (s2, d :: ds)

/-! ### The processor (bot.js `processMessage`)

All durable state is gathered in a `World`; external effects — the AI
completion, the published replies and balance events, the debit — are
reported in an `Effects` record, and environment-supplied data (the
decrypted plaintext, the AI answer, the generated session id, the id of
the signed reply event, the profile lookup result) arrive in a `ProcEnv`.
The decorative emoji glyphs in the user-facing strings are elided. -/

structure World where
  conv : ConvDb
  zap : ZapDb
  fingerprints : List (String × Nat)
deriving DecidableEq, Repr

structure Effects where
  aiCalls : Nat
  replies : Nat
  errorReplies : Nat
  balancePublishes : Nat
  debits : Nat
deriving DecidableEq, Repr

def Effects.zero : Effects := ⟨0, 0, 0, 0, 0⟩

structure ProcEnv where
  now : Nat
  decrypted : String
  aiResponse : String
  freshSessionId : String
  replyEventId : String
  userMeta : Option UserMeta
deriving DecidableEq, Repr

/-- The balance-info reply text. -/
def balanceMessageText (bal : Int) : String :=
  "Your current balance: " ++ toString bal ++ " sats\n\n" ++
  "Cost per message:\n  - DM (Direct Message): 1 sat\n  - Public mention/reply: 2 sats\n\n" ++
  "Send a Zap to top up your balance!"

/-- The insufficient-funds reply text. -/
def insufficientBalanceText (bal : Int) (cost : Int) (isDm : Bool) : String :=
  "Insufficient balance!\n\nYour balance: " ++ toString bal ++ " sats\nRequired: " ++
  toString cost ++ " sats (" ++ (if isDm then "DM" else "Public mention/reply") ++ ")\n\n" ++
  "Please send a Zap to top up your balance and continue using ZapAI. Thank you!"

/-- The payment-processing error reply text. -/
def deductErrorText : String :=
  "An error occurred while processing your payment. Please try again."

/-- The save metadata built for the inbound user message. -/
def userSaveMeta (e : Event) (sessionTag : Option String) (userMeta : Option UserMeta) :
    SaveMeta :=
  { eventId := some e.id, eventKind := some e.kind, messageType := some .question,
    sessionId := sessionTag, replyTo := none, timestamp := none,
    userMetadata := if e.kind = 4 then userMeta else none,
    messageSource := none, sessionLabel := none }

/-- The save metadata built for a bot-authored log entry. -/
def botSaveMeta (e : Event) (ty : MsgType) (sessionId : Option String)
    (eventId replyTo : Option String) : SaveMeta :=
  { eventId := eventId, eventKind := some e.kind, messageType := some ty,
    sessionId := sessionId, replyTo := replyTo, timestamp := none,
    userMetadata := none, messageSource := none, sessionLabel := none }

/-- Effects of the best-effort error DM of the catch block (sent only on
the private channel). -/
def errorEffects (e : Event) : Effects :=
  { Effects.zero with errorReplies := if e.kind = 4 then 1 else 0 }

/-- The tail of `processMessage` after the user message was persisted
(the `.saved` branch): the balance-intent branch, the pre-debit balance
check, the debit, history fetch, AI call, reply publish, balance publish
and the response log entry. -/
def processAfterSave (w2 : World) (e : Event) (env : ProcEnv)
    (sessionId : Option String) (messageContent : String) : World × Effects :=
  if isBalanceRequest messageContent then
    let currentBalance := w2.zap.getBalance e.pubkey
    let balMsg := balanceMessageText currentBalance
    let md2 := botSaveMeta e .balanceInfo sessionId none none
    match saveMessage w2.conv e.pubkey balMsg true md2 env.now env.freshSessionId with
    | .error _ =>
      (w2, { errorEffects e with replies := 1, balancePublishes := 1 })
    | .ok (conv2, _) =>
      ({ w2 with conv := conv2 },
       { Effects.zero with replies := 1, balancePublishes := 1 })
  else
    let cost : Int := if e.kind = 4 then 1 else 2
    let currentBalance := w2.zap.getBalance e.pubkey
    if currentBalance < cost then
      let msg := insufficientBalanceText currentBalance cost (e.kind = 4)
      let md2 := botSaveMeta e .system sessionId none none
      match saveMessage w2.conv e.pubkey msg true md2 env.now env.freshSessionId with
      | .error _ =>
        (w2, { errorEffects e with replies := 1, balancePublishes := 1 })
      | .ok (conv2, _) =>
        ({ w2 with conv := conv2 },
         { Effects.zero with replies := 1, balancePublishes := 1 })
    else
      match w2.zap.deductFromBalance e.pubkey cost env.now with
      | (_, .insufficient) =>
        let md2 := botSaveMeta e .system sessionId none none
        match saveMessage w2.conv e.pubkey deductErrorText true md2 env.now
            env.freshSessionId with
        | .error _ =>
          (w2, { errorEffects e with replies := 1, balancePublishes := 1 })
        | .ok (conv2, _) =>
          ({ w2 with conv := conv2 },
           { Effects.zero with replies := 1, balancePublishes := 1 })
      | (zap1, .ok _) =>
        let w3 : World := { w2 with zap := zap1 }
        let history :=
          match sessionId with
          | some sid => getConversationBySession w3.conv e.pubkey sid 100
          | none => getConversation w3.conv e.pubkey 100
        let _ := history
        let response := env.aiResponse
        let md3 := botSaveMeta e .response sessionId (some env.replyEventId) none
        match saveMessage w3.conv e.pubkey response true md3 env.now
            env.freshSessionId with
        | .error _ =>
          (w3, { errorEffects e with
                  aiCalls := 1, replies := 1, balancePublishes := 1, debits := 1 })
        | .ok (conv3, _) =>
          ({ w3 with conv := conv3 },
           { Effects.zero with
              aiCalls := 1, replies := 1, balancePublishes := 1, debits := 1 })

/-- `processMessage`: session-tag extraction, content extraction
(decryption for private messages), empty-content drop, content
fingerprint dedup with its 5-minute sweep, persisting the user message
(aborting on a duplicate event id), the balance-intent branch, the
balance check and debit, the history fetch, the AI call, the reply and
balance publishes, and the response log entry (whose `replyTo` is `null`
because `saveMessage` returns no `messageId` field). -/
def processMessage (w : World) (e : Event) (env : ProcEnv) : World × Effects :=
  let sessionTag : Option String :=
    if e.kind = 4 then
      match findTag e.tags "session" with
      | some t => tagPayload t
      | none => none
    else none
  let contentOpt : Option String :=
    if e.kind = 4 then some env.decrypted
    else if e.kind = 1 then some e.content
    else none
  match contentOpt with
  | none => (w, Effects.zero)
  | some messageContent =>
    if jsTrim messageContent = "" then (w, Effects.zero)
    else
      let fingerprint := e.pubkey ++ ":" ++ messageContent
      if (alookup w.fingerprints fingerprint).isSome then (w, Effects.zero)
      else
        let fps1 := aset w.fingerprints fingerprint env.now
        let fps2 := fps1.filter (fun kv => !(decide (300000 < env.now - kv.2)))
        let w1 : World := { w with fingerprints := fps2 }
        let md := userSaveMeta e sessionTag env.userMeta
        match saveMessage w1.conv e.pubkey messageContent false md env.now env.freshSessionId with
        | .error _ => (w1, errorEffects e)
        | .ok (conv1, res) =>
          let w2 : World := { w1 with conv := conv1 }
          match res with
          | .duplicate _ _ => (w2, Effects.zero)
          | .saved savedSessionId _ _ =>
            let sessionId : Option String :=
              if savedSessionId ≠ "" then some savedSessionId else sessionTag
            processAfterSave w2 e env sessionId messageContent

/-- Iterate the processor over a list of per-delivery environments,
summing the effect counters. -/
def processMany (w : World) (e : Event) : List ProcEnv → World × Effects
  | [] => (w, Effects.zero)
  | env :: rest =>
    let (w1, eff1) := processMessage w e env
    let (w2, eff2) := processMany w1 e rest
    (w2,
     { aiCalls := eff1.aiCalls + eff2.aiCalls,
       replies := eff1.replies + eff2.replies,
       errorReplies := eff1.errorReplies + eff2.errorReplies,
       balancePublishes := eff1.balancePublishes + eff2.balancePublishes,
       debits := eff1.debits + eff2.debits })

/-- Number of records of one log carrying the given source event id. -/
def cntEv (eid : String) (log : List MessageRecord) : Nat :=
  (log.filter (fun r => r.eventId = some eid)).length

/-- Number of stored message records carrying the given source event id,
summed over every log entry of the store. -/
def countRecordsWithEvent (db : ConvDb) (eid : String) : Nat :=
  (db.logs.map (fun kv => cntEv eid kv.2)).sum

/-! ### Fixtures and iterators used by the statements below -/

/-- Iterate `execute` over consecutive failing calls at a fixed time. -/
def failTimes (b : Breaker) (now : Nat) (fb : Option String) : Nat → Breaker
  | 0 => b
  | n + 1 => failTimes ((b.execute now .err fb).breaker) now fb n

/-- A zap receipt whose embedded request carries a non-numeric amount tag. -/
def nanReceiptEvent : Event :=
  { id := "receipt-nan", pubkey := "author-pk", kind := 9735,
    tags := [["bolt11", "lnbc1xyz"], ["description", "zap-request-json"]],
    content := "" }

def nanReceiptRequest : ZapRequest :=
  { pubkey := some "sender-p1", id := some "zapreq-1", tags := [["amount", "abc"]] }

/-- A zap receipt whose embedded request carries a negative millisat
amount tag. -/
def negReceiptEvent : Event :=
  { id := "receipt-neg", pubkey := "author-pk", kind := 9735,
    tags := [["description", "zap-request-json"]], content := "" }

def negReceiptRequest : ZapRequest :=
  { pubkey := some "sender-p1", id := some "zapreq-2", tags := [["amount", "-5000"]] }

/-- Decidable form of the non-negative-balance invariant: every stored
balance is a number and at least 0. -/
def balOk : JsNum → Bool
  | some v => decide (0 ≤ v)
  | none => false

def NonNegBal (db : ZapDb) : Bool := db.balances.all (fun kv => balOk kv.2.balance)

/-- Rate limiter fixture: full global bucket, one drained user bucket. -/
def rlFixture : RateLimiter :=
  { maxTokens := 5, refillRate := 1,
    globalBucket := { tokens := 5, lastRefill := 100 },
    buckets := [("u", { tokens := 0, lastRefill := 100 })] }

/-- Rate limiter fixture with a drained global bucket. -/
def rlFixtureG : RateLimiter :=
  { maxTokens := 5, refillRate := 2,
    globalBucket := { tokens := 0, lastRefill := 100 },
    buckets := [("u", { tokens := 5, lastRefill := 100 })] }

/-- The store produced by saving one message into the empty store (used to
instantiate the session-log theorem). -/
def c6SavedRecord : MessageRecord :=
  { pubkey := "pk", sessionId := "s1", message := "hi", isFromBot := false,
    timestamp := 5, messageType := .question, replyTo := none,
    eventId := none, eventKind := none, userMetadata := none }

def c6SavedMeta : SessionMeta :=
  { pubkey := "pk", sessionId := "s1", createdAt := 5, lastMessageAt := 5,
    messageCount := 1, origin := none, label := none, lastTouchedAt := none }

def c6SavedDb : ConvDb :=
  { metas := [(("pk", "s1"), c6SavedMeta)],
    logs := [(("pk", "s1"), [c6SavedRecord])],
    markers := [], userSessions := [("pk", ["s1"])] }

/-- A private-message event fixture for the idempotency witnesses. -/
def dmEvent : Event :=
  { id := "ev1", pubkey := "pk", kind := 4,
    tags := [["p", "botpk"], ["session", "s1"]], content := "cipher" }

def dmEnv : ProcEnv :=
  { now := 10, decrypted := "hello there", aiResponse := "hi, user",
    freshSessionId := "fresh1", replyEventId := "reply1", userMeta := none }

/-- A world giving the sender a positive balance. -/
def dmWorld : World :=
  { conv := ConvDb.empty,
    zap := { zaps := [],
             balances := [("pk", { pubkey := "pk", balance := some 50, lastUpdated := 0 })] },
    fingerprints := [] }

/-- A world where the sender has no balance record at all. -/
def dmWorldZero : World :=
  { conv := ConvDb.empty, zap := { zaps := [], balances := [] }, fingerprints := [] }

/-! ## Store lemmas -/

theorem alookup_aset_self {α β : Type} [DecidableEq α] (l : List (α × β)) (a : α) (b : β) :
    alookup (aset l a b) a = some b := by
  induction l with
  | nil => simp [aset, alookup]
  | cons kv rest ih =>
    obtain ⟨k, v⟩ := kv
    by_cases h : k = a <;> simp [aset, alookup, h, ih]

theorem alookup_aset_ne {α β : Type} [DecidableEq α] (l : List (α × β)) (a x : α) (b : β)
    (h : a ≠ x) : alookup (aset l a b) x = alookup l x := by
  induction l with
  | nil => simp [aset, alookup, h]
  | cons kv rest ih =>
    obtain ⟨k, v⟩ := kv
    by_cases hk : k = a
    · subst hk
      simp [aset, alookup, h]
    · simp [aset, hk, alookup, ih]

theorem mem_aset {α β : Type} [DecidableEq α] (l : List (α × β)) (a : α) (b : β)
    (x : α × β) (hx : x ∈ aset l a b) : x = (a, b) ∨ x ∈ l := by
  induction l with
  | nil =>
    simp only [aset, List.mem_singleton] at hx
    exact Or.inl hx
  | cons kv rest ih =>
    obtain ⟨k, v⟩ := kv
    by_cases hk : k = a
    · rw [show aset ((k, v) :: rest) a b = (a, b) :: rest from by simp [aset, hk]] at hx
      rcases List.mem_cons.1 hx with h | h
      · exact Or.inl h
      · exact Or.inr (List.mem_cons_of_mem _ h)
    · rw [show aset ((k, v) :: rest) a b = (k, v) :: aset rest a b from by
          simp [aset, hk]] at hx
      rcases List.mem_cons.1 hx with h | h
      · exact Or.inr (List.mem_cons.2 (Or.inl h))
      · rcases ih h with h2 | h2
        · exact Or.inl h2
        · exact Or.inr (List.mem_cons_of_mem _ h2)

theorem alookup_mem {α β : Type} [DecidableEq α] (l : List (α × β)) (a : α) (v : β)
    (h : alookup l a = some v) : (a, v) ∈ l := by
  induction l with
  | nil => simp [alookup] at h
  | cons kv rest ih =>
    obtain ⟨k, w⟩ := kv
    by_cases hk : k = a
    · subst hk
      simp [alookup] at h
      simp [h]
    · simp only [alookup, if_neg hk] at h
      exact List.mem_cons_of_mem _ (ih h)

/-! ## Circuit breaker lemmas -/

/-- With a fallback supplied, `execute` never throws (the helper shared by
the breaker claims). -/
theorem execute_fallback_ne_thrown (b : Breaker) (now : Nat) (fn : FnOut) (v : String) :
    (b.execute now fn (some v)).result ≠ ExecResult.thrown := by
  unfold Breaker.execute Breaker.runProtected
  by_cases h : b.state = .opened
  · by_cases h2 : now < b.nextAttempt
    · simp [h, h2]
    · cases fn <;> simp [h, h2]
  · cases fn <;> simp [h]

/-- Effect of one failing call on a CLOSED breaker. -/
theorem execute_err_closed (b : Breaker) (now : Nat) (fb : Option String)
    (hst : b.state = .closed) :
    (b.failureThreshold ≤ b.failures + 1 →
      ((b.execute now .err fb).breaker.state = .opened ∧
       (b.execute now .err fb).breaker.nextAttempt = now + b.resetTimeout ∧
       (b.execute now .err fb).breaker.failures = b.failures + 1 ∧
       (b.execute now .err fb).breaker.failureThreshold = b.failureThreshold ∧
       (b.execute now .err fb).breaker.resetTimeout = b.resetTimeout)) ∧
    (¬ b.failureThreshold ≤ b.failures + 1 →
      ((b.execute now .err fb).breaker.state = .closed ∧
       (b.execute now .err fb).breaker.failures = b.failures + 1 ∧
       (b.execute now .err fb).breaker.failureThreshold = b.failureThreshold ∧
       (b.execute now .err fb).breaker.resetTimeout = b.resetTimeout)) := by
  have hne : ¬ b.state = BState.opened := by rw [hst]; intro hh; cases hh
  constructor
  · intro hth
    cases fb <;>
      simp [Breaker.execute, Breaker.runProtected, Breaker.onFailure, Breaker.openCb,
        hne, hth, hst]
  · intro hth
    cases fb <;>
      simp [Breaker.execute, Breaker.runProtected, Breaker.onFailure, Breaker.openCb,
        hne, hth, hst]

/-- Consecutive failures from a clean CLOSED breaker open the circuit and
arm the reset timer. -/
theorem failTimes_opens (now : Nat) (fb : Option String) :
    ∀ (n : Nat) (b : Breaker), b.state = .closed → b.failures + n = b.failureThreshold →
      1 ≤ n →
      (failTimes b now fb n).state = .opened ∧
      (failTimes b now fb n).nextAttempt = now + b.resetTimeout := by
  intro n
  induction n with
  | zero => omega
  | succ m ih =>
    intro b hst hsum _
    have hstep := execute_err_closed b now fb hst
    rcases Nat.eq_zero_or_pos m with hm | hm
    · subst hm
      have hth : b.failureThreshold ≤ b.failures + 1 := by omega
      obtain ⟨h1, h2, _, _, _⟩ := hstep.1 hth
      simp only [failTimes]
      exact ⟨h1, h2⟩
    · have hth : ¬ b.failureThreshold ≤ b.failures + 1 := by omega
      obtain ⟨h1, h2, h3, h4⟩ := hstep.2 hth
      simp only [failTimes]
      have := ih ((b.execute now .err fb).breaker) h1 (by omega) hm
      rw [h4] at this
      exact this

/-- C10: with a non-null fallback, `execute` never propagates an
exception: it never returns `thrown`; any failing outcome of the wrapped
function yields the fallback value; and a rejection while OPEN yields the
fallback value without invoking the wrapped function. -/
theorem C10_fallback_never_throws (b : Breaker) (now : Nat) (fn : FnOut) (v : String) :
    (b.execute now fn (some v)).result ≠ ExecResult.thrown ∧
    (fn = .err → (b.execute now fn (some v)).result = .fellBack v) ∧
    (b.state = .opened → now < b.nextAttempt →
      (b.execute now fn (some v)).result = .fellBack v ∧
      (b.execute now fn (some v)).invoked = false) := by
  refine ⟨execute_fallback_ne_thrown b now fn v, ?_, ?_⟩
  · rintro rfl
    unfold Breaker.execute Breaker.runProtected
    by_cases h : b.state = .opened
    · by_cases h2 : now < b.nextAttempt <;> simp [h, h2]
    · simp [h]
  · intro h h2
    unfold Breaker.execute
    simp [h, h2]

/-- C10 witness: a failing call on the fresh AI breaker returns the
fallback value. -/
theorem C10_fallback_never_throws_witness :
    ((geminiBreaker 0).execute 0 .err (some "sorry-busy")).result
      = .fellBack "sorry-busy" :=
  (C10_fallback_never_throws (geminiBreaker 0) 0 .err "sorry-busy").2.1 rfl

/-- C5: lifecycle of the breaker.  (a) `failureThreshold` consecutive
failures from a clean CLOSED breaker leave it OPEN with
`nextAttempt = now + resetTimeout`; (b) while OPEN and before
`nextAttempt` a call is rejected without invoking the function, the state
is untouched, and the fallback value (or a throw when no fallback) is
returned; (c) the first call at or after `nextAttempt` is executed;
(d) with `successThreshold = 1` (the configuration the AI client uses) a
success on that call returns the breaker to CLOSED with both counters
reset; (e) a failure on that call returns it to OPEN and restarts the
timer (the hypothesis `failureThreshold ≤ failures` holds in every
reachable OPEN state by (f), the invariant preserved by every call). -/
theorem C5_breaker_lifecycle :
    (∀ (b : Breaker) (now : Nat) (fb : Option String),
      b.state = .closed → b.failures = 0 → 1 ≤ b.failureThreshold →
      (failTimes b now fb b.failureThreshold).state = .opened ∧
      (failTimes b now fb b.failureThreshold).nextAttempt = now + b.resetTimeout) ∧
    (∀ (b : Breaker) (now : Nat) (fn : FnOut) (fb : Option String),
      b.state = .opened → now < b.nextAttempt →
      (b.execute now fn fb).invoked = false ∧ (b.execute now fn fb).breaker = b ∧
      (∀ v, fb = some v → (b.execute now fn fb).result = .fellBack v) ∧
      (fb = none → (b.execute now fn fb).result = .thrown)) ∧
    (∀ (b : Breaker) (now : Nat) (fn : FnOut) (fb : Option String),
      b.state = .opened → b.nextAttempt ≤ now →
      (b.execute now fn fb).invoked = true) ∧
    (∀ (b : Breaker) (now : Nat) (v : String) (fb : Option String),
      b.state = .opened → b.nextAttempt ≤ now → b.successThreshold = 1 →
      (b.execute now (.ok v) fb).breaker.state = .closed ∧
      (b.execute now (.ok v) fb).breaker.failures = 0 ∧
      (b.execute now (.ok v) fb).breaker.successes = 0) ∧
    (∀ (b : Breaker) (now : Nat) (fb : Option String),
      b.state = .opened → b.nextAttempt ≤ now → b.failureThreshold ≤ b.failures →
      (b.execute now .err fb).breaker.state = .opened ∧
      (b.execute now .err fb).breaker.nextAttempt = now + b.resetTimeout) ∧
    (∀ (b : Breaker) (now : Nat) (fn : FnOut) (fb : Option String),
      (b.state = .opened → b.failureThreshold ≤ b.failures) →
      ((b.execute now fn fb).breaker.state = .opened →
        b.failureThreshold ≤ (b.execute now fn fb).breaker.failures)) := by
  refine ⟨?_, ?_, ?_, ?_, ?_, ?_⟩
  · intro b now fb hst hf hth
    exact failTimes_opens now fb b.failureThreshold b hst (by omega) hth
  · intro b now fn fb hst hlt
    unfold Breaker.execute
    refine ⟨?_, ?_, ?_, ?_⟩ <;> cases fb <;> simp [hst, hlt]
  · intro b now fn fb hst hge
    have hlt : ¬ now < b.nextAttempt := by omega
    unfold Breaker.execute Breaker.runProtected
    cases fn <;> cases fb <;> simp [hst, hlt]
  · intro b now v fb hst hge hsucc
    have hlt : ¬ now < b.nextAttempt := by omega
    unfold Breaker.execute Breaker.runProtected
    simp [hst, hlt, Breaker.onSuccess, Breaker.closeCb, hsucc]
  · intro b now fb hst hge hth
    have hlt : ¬ now < b.nextAttempt := by omega
    have hth2 : b.failureThreshold ≤ b.failures + 1 := by omega
    unfold Breaker.execute Breaker.runProtected
    cases fb <;>
      simp [hst, hlt, Breaker.onFailure, Breaker.openCb, hth2]
  · intro b now fn fb hinv hopen
    by_cases hst : b.state = .opened
    · by_cases hlt : now < b.nextAttempt
      · unfold Breaker.execute at hopen ⊢
        cases fb <;> simp only [hst, hlt, if_true, if_pos rfl] at hopen ⊢ <;>
          exact hinv hst
      · unfold Breaker.execute Breaker.runProtected at hopen ⊢
        cases fn with
        | ok v =>
          by_cases hsc : b.successThreshold ≤ b.successes + 1 <;>
            simp [hst, hlt, Breaker.onSuccess, Breaker.closeCb, hsc] at hopen
        | err =>
          by_cases hft : b.failureThreshold ≤ b.failures + 1
          · cases fb <;>
              simp [hst, hlt, Breaker.onFailure, Breaker.openCb, hft] at hopen ⊢
          · cases fb <;>
              simp [hst, hlt, Breaker.onFailure, Breaker.openCb, hft] at hopen
    · unfold Breaker.execute Breaker.runProtected at hopen ⊢
      cases fn with
      | ok v =>
        by_cases hho : b.state = .halfOpen
        · by_cases hsc : b.successThreshold ≤ b.successes + 1 <;>
            simp [hst, hho, Breaker.onSuccess, Breaker.closeCb, hsc] at hopen
        · simp [hst, hho, Breaker.onSuccess, Breaker.closeCb] at hopen
      | err =>
        by_cases hft : b.failureThreshold ≤ b.failures + 1
        · cases fb <;>
            simp [hst, Breaker.onFailure, Breaker.openCb, hft] at hopen ⊢
        · cases fb <;> simp [hst, Breaker.onFailure, Breaker.openCb, hft] at hopen

/-- C5 witness: the AI breaker configuration (thresholds 3 and 1, reset
10 s) opens after 3 consecutive failures with `nextAttempt = 100 + 10000`,
rejects a call at time 5000 without invoking it, lets a call through at
time 10100, closes on its success, and reopens on its failure. -/
theorem C5_breaker_lifecycle_witness :
    (failTimes (geminiBreaker 0) 100 (some "f") 3).state = .opened ∧
    (failTimes (geminiBreaker 0) 100 (some "f") 3).nextAttempt = 10100 ∧
    ((failTimes (geminiBreaker 0) 100 (some "f") 3).execute 5000 (.ok "yes")
        (some "f")).invoked = false ∧
    ((failTimes (geminiBreaker 0) 100 (some "f") 3).execute 10100 (.ok "yes")
        (some "f")).invoked = true ∧
    ((failTimes (geminiBreaker 0) 100 (some "f") 3).execute 10100 (.ok "yes")
        (some "f")).breaker.state = .closed ∧
    ((failTimes (geminiBreaker 0) 100 (some "f") 3).execute 10100 .err
        (some "f")).breaker.state = .opened ∧
    ((failTimes (geminiBreaker 0) 100 (some "f") 3).execute 10100 .err
        (some "f")).breaker.nextAttempt = 10100 + 10000 := by
  have h1 := C5_breaker_lifecycle.1 (geminiBreaker 0) 100 (some "f") rfl rfl (by decide)
  simp only [show (geminiBreaker 0).failureThreshold = 3 from rfl,
    show (geminiBreaker 0).resetTimeout = 10000 from rfl] at h1
  have hna : (failTimes (geminiBreaker 0) 100 (some "f") 3).nextAttempt = 10100 := h1.2
  refine ⟨h1.1, hna, ?_, ?_, ?_, ?_, ?_⟩
  · exact (C5_breaker_lifecycle.2.1 _ 5000 (.ok "yes") (some "f") h1.1
      (by rw [hna]; decide)).1
  · exact C5_breaker_lifecycle.2.2.1 _ 10100 (.ok "yes") (some "f") h1.1
      (by simp [hna])
  · exact (C5_breaker_lifecycle.2.2.2.1 _ 10100 "yes" (some "f") h1.1
      (by simp [hna]) (by decide)).1
  · exact (C5_breaker_lifecycle.2.2.2.2.1 _ 10100 (some "f") h1.1
      (by simp [hna]) (by decide)).1
  · have h2 := (C5_breaker_lifecycle.2.2.2.2.1 _ 10100 (some "f") h1.1
      (by simp [hna]) (by decide)).2
    simpa [show (failTimes (geminiBreaker 0) 100 (some "f") 3).resetTimeout = 10000
      from by decide] using h2

/-! ## C4: the generateResponse retry loop -/

/-- C4 counterexample: the first protected execution fails transiently and
a retry would succeed (`.ok "ok"` outcomes remain), yet `generateResponse`
returns a fallback apology after a single invocation with no backoff
sleep — the retry loop never runs, because `execute` already returned the
fallback instead of throwing. -/
theorem C4_counterexample :
    (generateResponse (geminiBreaker 0) 0 [.err, .ok "ok", .ok "ok"] 0).result
        ≠ some "ok" ∧
    (generateResponse (geminiBreaker 0) 0 [.err, .ok "ok", .ok "ok"] 0).invocations = 1 ∧
    (generateResponse (geminiBreaker 0) 0 [.err, .ok "ok", .ok "ok"] 0).sleeps = [] ∧
    (generateResponse (geminiBreaker 0) 0 [.err, .ok "ok", .ok "ok"] 0).result
        = some (apology 0) := by
  refine ⟨?_, by decide, by decide, by decide⟩
  decide

/-- C4 (amended): whenever the first breaker-protected execution fails,
`generateResponse` immediately returns one of the fixed apology strings
(the breaker fallback), counts one `fallbacks` increment and performs no
backoff sleep; more generally the surrounding retry loop never reaches a
second attempt on any input, because `execute` never throws when a
fallback is supplied. -/
theorem C4_first_failure_falls_back (b : Breaker) (now : Nat) (outs : List FnOut)
    (r : Nat) (hclosed : b.state = .closed) (hfail : outs.headD .err = .err) :
    (generateResponse b now outs r).result = some (apology r) ∧
    (generateResponse b now outs r).invocations = 1 ∧
    (generateResponse b now outs r).fallbacks = 1 ∧
    (generateResponse b now outs r).sleeps = [] ∧
    (∀ (b2 : Breaker) (now2 : Nat) (outs2 : List FnOut) (r2 : Nat),
      (generateResponse b2 now2 outs2 r2).sleeps = [] ∧
      (generateResponse b2 now2 outs2 r2).invocations ≤ 1) := by
  have key : ∀ (b2 : Breaker) (now2 : Nat) (outs2 : List FnOut) (r2 : Nat),
      (generateResponse b2 now2 outs2 r2).sleeps = [] ∧
      (generateResponse b2 now2 outs2 r2).invocations ≤ 1 := by
    intro b2 now2 outs2 r2
    unfold generateResponse generateLoop
    simp only [Nat.lt_irrefl, if_false, Nat.add_zero]
    cases hres : (b2.execute now2 (outs2.headD .err) (some (apology r2))).result with
    | value v => simp [hres]; split <;> simp
    | fellBack v => simp [hres]; split <;> simp
    | thrown => exact absurd hres (execute_fallback_ne_thrown b2 now2 (outs2.headD .err)
        (apology r2))
  have hne : ¬ b.state = BState.opened := by rw [hclosed]; intro hh; cases hh
  have hexec : b.execute now (outs.headD .err) (some (apology r))
      = ⟨.fellBack (apology r), true, (b.onFailure now)⟩ := by
    rw [hfail] at *
    simp [Breaker.execute, Breaker.runProtected, hne, hfail]
  simp only [List.headD_eq_head?_getD] at hexec
  refine ⟨?_, ?_, ?_, ?_, key⟩ <;>
    · unfold generateResponse generateLoop
      simp [Nat.lt_irrefl, if_false, Nat.add_zero, hexec]

/-- C4 witness for the amended claim: the fresh AI breaker with a single
failing outcome. -/
theorem C4_first_failure_falls_back_witness :
    (generateResponse (geminiBreaker 7) 7 [.err] 2).result = some (apology 2) ∧
    (generateResponse (geminiBreaker 7) 7 [.err] 2).invocations = 1 ∧
    (generateResponse (geminiBreaker 7) 7 [.err] 2).fallbacks = 1 ∧
    (generateResponse (geminiBreaker 7) 7 [.err] 2).sleeps = [] := by
  have h := C4_first_failure_falls_back (geminiBreaker 7) 7 [.err] 2 rfl rfl
  exact ⟨h.1, h.2.1, h.2.2.1, h.2.2.2.1⟩

/-! ## C9: relay reconnect policy -/

/-- C9 counterexample: the delay after the first consecutive failure is
5000 ms, not `min(5000·2^1, 60000) = 10000` ms; and after the counter
reaches the maximum (5) the relay is not yet marked failed nor exited —
one more reconnect (with a 60 s backoff) is still attempted, and only the
next failure marks the relay permanently failed. -/
theorem C9_counterexample :
    (relayRun .init [RelayInput.streamExit]).2 = [some 5000] ∧
    (5000 : Nat) ≠ min (5000 * 2 ^ 1) 60000 ∧
    (relayRun .init (List.replicate 5 .streamExit)).1.attempts = 5 ∧
    (relayRun .init (List.replicate 5 .streamExit)).1.markedFailed = false ∧
    (relayRun .init (List.replicate 5 .streamExit)).1.exited = false ∧
    (relayRun .init (List.replicate 5 .streamExit)).2.getLast? = some (some 60000) ∧
    (relayRun .init (List.replicate 6 .streamExit)).1.markedFailed = true ∧
    (relayRun .init (List.replicate 6 .streamExit)).1.exited = true := by
  decide

/-- C9 (amended): with `k` prior consecutive failures recorded, the next
stream failure schedules a reconnect after `min(5000·2^k, 60000)` ms and
advances the counter; an event delivery resets the counter to 0; a stream
failure arriving with the counter already at the maximum (5) — i.e. after
five consecutive failed reconnects — marks the relay permanently failed
and exits the loop; and an exited loop never schedules another
reconnect. -/
theorem C9_reconnect_policy :
    (∀ (s : RelayLoopState), s.exited = false → s.attempts < maxReconnectAttempts →
      relayStep s .streamExit
        = ({ s with attempts := s.attempts + 1 },
           some (min (5000 * 2 ^ s.attempts) 60000))) ∧
    (∀ (s : RelayLoopState), s.exited = false →
      relayStep s .eventDelivered = ({ s with attempts := 0 }, none)) ∧
    (∀ (s : RelayLoopState), s.exited = false → maxReconnectAttempts ≤ s.attempts →
      relayStep s .streamExit
        = ({ s with markedFailed := true, exited := true }, none)) ∧
    (∀ (s : RelayLoopState) (i : RelayInput), s.exited = true →
      relayStep s i = (s, none)) := by
  refine ⟨?_, ?_, ?_, ?_⟩
  · intro s hex hlt
    have : ¬ maxReconnectAttempts ≤ s.attempts := by omega
    simp [relayStep, hex, this]
  · intro s hex
    simp [relayStep, hex]
  · intro s hex hge
    simp [relayStep, hex, hge]
  · intro s i hex
    simp [relayStep, hex]

/-- C9 witness: the first failure from the initial loop state backs off
5 s; an event delivery resets the counter; a failure at the maximum
marks the relay failed. -/
theorem C9_reconnect_policy_witness :
    relayStep .init .streamExit = (⟨1, false, false⟩, some 5000) ∧
    relayStep ⟨3, false, false⟩ .eventDelivered = (⟨0, false, false⟩, none) ∧
    relayStep ⟨5, false, false⟩ .streamExit = (⟨5, true, true⟩, none) := by
  refine ⟨?_, ?_, ?_⟩
  · have h := C9_reconnect_policy.1 RelayLoopState.init rfl (by decide)
    simpa using h
  · have h := C9_reconnect_policy.2.1 ⟨3, false, false⟩ rfl
    simpa using h
  · have h := C9_reconnect_policy.2.2.1 ⟨5, false, false⟩ rfl (by decide)
    simpa using h

/-! ## C7: rate limiter retry-after -/

/-- C7 counterexample: a per-user denial with cost 3 against an empty
bucket at refill rate 1 returns `retryAfter = 1` second (the source
computes `ceil((1 - tokens)/refillRate)` with a hard-coded 1), whereas
the claimed formula `ceil((cost - tokens)/refillRate)` gives 3. -/
theorem C7_counterexample :
    (checkLimit rlFixture "u" 3 100).1 = .denied false 1 ∧
    (1 : Int) ≠ max 1 ⌈((3 : ℚ) - 0) / 1⌉ := by
  constructor
  · norm_num [checkLimit, checkGlobalLimit, getUserBucket, refillBucket, getRetryAfter,
      rlFixture, alookup, aset, min_def]
  · intro h
    rw [show max 1 ⌈((3 : ℚ) - 0) / 1⌉ = 3 by norm_num] at h
    omega

/-- C7 (amended): a denial returns
`retryAfter = max(1, ceil((1 - tokens)/refillRate))` where `tokens` is the
lazily refilled token count of the denying bucket at check time (the
source hard-codes 1 in place of `cost`; the two formulas agree at the
default cost of 1); and when the refilled global bucket cannot cover the
cost the global denial is reported at once - the per-user bucket is not
consulted and the bucket map is left untouched. -/
theorem C7_retry_after (rl : RateLimiter) (userId : String) (cost : ℚ) (now : ℚ) :
    ((refillBucket rl rl.globalBucket now).tokens < cost →
      checkLimit rl userId cost now
        = (.denied true
             (max 1 ⌈(1 - (refillBucket rl rl.globalBucket now).tokens) / rl.refillRate⌉),
           { rl with globalBucket := refillBucket rl rl.globalBucket now }) ∧
      (checkLimit rl userId cost now).2.buckets = rl.buckets) ∧
    ((checkGlobalLimit rl now cost).1 = true →
      (getUserBucket (checkGlobalLimit rl now cost).2 userId now).1.tokens < cost →
      checkLimit rl userId cost now
        = (.denied false
             (max 1 ⌈(1 - (getUserBucket (checkGlobalLimit rl now cost).2
                userId now).1.tokens) / rl.refillRate⌉),
           (getUserBucket (checkGlobalLimit rl now cost).2 userId now).2)) := by
  have hgrr : (checkGlobalLimit rl now cost).2.refillRate = rl.refillRate := by
    simp only [checkGlobalLimit]
    split <;> rfl
  have hurr : (getUserBucket (checkGlobalLimit rl now cost).2 userId now).2.refillRate
      = rl.refillRate := by
    simp only [getUserBucket, hgrr]
  constructor
  · intro hlt
    have hnot : ¬ cost ≤ (refillBucket rl rl.globalBucket now).tokens := not_le.mpr hlt
    constructor
    · simp [checkLimit, checkGlobalLimit, hnot, getRetryAfter]
    · simp [checkLimit, checkGlobalLimit, hnot, getRetryAfter]
  · intro hgl hlt
    have hnot : ¬ cost ≤ (getUserBucket (checkGlobalLimit rl now cost).2 userId
        now).1.tokens := not_le.mpr hlt
    rw [show checkLimit rl userId cost now
        = (if (checkGlobalLimit rl now cost).1 then
            (if cost ≤ (getUserBucket (checkGlobalLimit rl now cost).2 userId
                now).1.tokens then
              (LimitOutcome.allowed,
               { (getUserBucket (checkGlobalLimit rl now cost).2 userId now).2 with
                  buckets := aset (getUserBucket (checkGlobalLimit rl now
                      cost).2 userId now).2.buckets userId
                    { (getUserBucket (checkGlobalLimit rl now cost).2 userId now).1 with
                        tokens := (getUserBucket (checkGlobalLimit rl now cost).2 userId
                          now).1.tokens - cost } })
            else
              (.denied false (getRetryAfter (getUserBucket (checkGlobalLimit rl now
                  cost).2 userId now).2 (getUserBucket (checkGlobalLimit rl now
                  cost).2 userId now).1),
               (getUserBucket (checkGlobalLimit rl now cost).2 userId now).2))
          else
            (.denied true (getRetryAfter (checkGlobalLimit rl now cost).2
                (checkGlobalLimit rl now cost).2.globalBucket),
             (checkGlobalLimit rl now cost).2)) from rfl]
    rw [hgl, if_pos rfl, if_neg hnot]
    simp only [getRetryAfter, hurr]

/-- C7 witness: the fixture with a full global bucket and a drained user
bucket denies a cost-3 check with retryAfter 1; the fixture with a
drained global bucket reports the global denial with the bucket map
untouched. -/
theorem C7_retry_after_witness :
    (checkLimit rlFixture "u" 3 100).1
      = .denied false
          (max 1 ⌈(1 - (getUserBucket (checkGlobalLimit rlFixture 100 3).2 "u"
            100).1.tokens) / rlFixture.refillRate⌉) ∧
    (checkLimit rlFixtureG "u" 1 100).2.buckets = rlFixtureG.buckets := by
  constructor
  · have h := (C7_retry_after rlFixture "u" 3 100).2 ?_ ?_
    · rw [h]
    · norm_num [checkGlobalLimit, refillBucket, rlFixture]
    · norm_num [checkGlobalLimit, getUserBucket, refillBucket, rlFixture, alookup, aset,
        min_def]
  · refine ((C7_retry_after rlFixtureG "u" 1 100).1 ?_).2
    norm_num [refillBucket, rlFixtureG]

/-! ## C8: the balance-intent classifier -/

/-- C8: the classifier is a function of the message text alone (it is a
pure Lean function of the string), and on the concrete inputs of the
spec: the typo query with the context word is classified as a balance
request, and the profile question falls through to the AI path via the
`profile` exclusion term. -/
theorem C8_balance_intent_examples :
    isBalanceRequest "chek my balnce?" = true ∧
    isBalanceRequest "tell me about my profile" = false := by
  constructor <;> decide

/-! ## C3: zero or unparseable receipt amounts -/

/-- C3 is right about the zero case but wrong about the unparseable case:
with an embedded request amount tag `"abc"`, `parseInt` yields NaN,
`Math.floor(NaN/1000)` stays NaN, the `amount === 0` guard does not fire,
and the receipt is persisted with a NaN amount while the sender balance
becomes NaN.  (The zero case is dropped as claimed.) -/
theorem C3_nan_amount_credited :
    (handleZapReceipt ⟨[], []⟩ nanReceiptEvent (some nanReceiptRequest) 77).2 ≠ .dropped ∧
    (handleZapReceipt ⟨[], []⟩ nanReceiptEvent (some nanReceiptRequest) 77).2
      = .credited "sender-p1" none 0 ∧
    (alookup (handleZapReceipt ⟨[], []⟩ nanReceiptEvent
        (some nanReceiptRequest) 77).1.balances "sender-p1").isSome = true ∧
    ((alookup (handleZapReceipt ⟨[], []⟩ nanReceiptEvent
        (some nanReceiptRequest) 77).1.balances "sender-p1").map
          (fun r => r.balance)) = some none ∧
    (alookup (handleZapReceipt ⟨[], []⟩ nanReceiptEvent
        (some nanReceiptRequest) 77).1.zaps ("sender-p1", 77)).isSome = true ∧
    (handleZapReceipt ⟨[], []⟩
        { nanReceiptEvent with tags := [["description", "zap-request-json"]] }
        (some { nanReceiptRequest with tags := [["amount", "0"]] }) 77).2
      = .dropped := by
  refine ⟨by decide, by decide, by decide, by decide, by decide, by decide⟩

/-! ## C1: non-negative balances -/

/-- C1 counterexample: a receipt whose embedded request carries the
millisat amount tag `"-5000"` passes the `amount === 0` check (−5 ≠ 0)
and is credited, leaving the sender balance at −5 < 0. -/
theorem C1_counterexample :
    jsEqNum (jsFloorDiv1000 (parseIntJs "-5000")) 0 = false ∧
    (handleZapReceipt ⟨[], []⟩ negReceiptEvent (some negReceiptRequest) 7).2
      = .credited "sender-p1" (some (-5)) (-5) ∧
    (handleZapReceipt ⟨[], []⟩ negReceiptEvent (some negReceiptRequest) 7).1.getBalance
        "sender-p1" < 0 := by
  refine ⟨by decide, by decide, by decide⟩

/-! ## C6: session log cap and message count -/

/-- After a successful `ensureSession`, the metadata row of the returned
session exists. -/
theorem ensureSession_meta (db : ConvDb) (pubkey : String) (rsid : Option String)
    (source label : Option String) (touch : Bool) (now : Nat) (freshId : String)
    (eo : EnsureOut)
    (h : ensureSession db pubkey rsid source label touch now freshId = .ok eo) :
    ∃ m, alookup eo.db.metas (sanitizePubkey pubkey, eo.sessionId) = some m := by
  simp only [ensureSession] at h
  split at h
  · cases h
  · split at h
    · repeat' split at h
      all_goals cases h
      all_goals exact ⟨_, alookup_aset_self _ _ _⟩
    · rename_i meta hmeta
      repeat' split at h
      all_goals cases h
      all_goals
        first
          | exact ⟨_, alookup_aset_self _ _ _⟩
          | exact ⟨meta, by simp_all⟩

/-- The log and metadata rows written by `commitSave` (the metadata row
must already exist, which `ensureSession` guarantees). -/
theorem commitSave_self (db : ConvDb) (npk sid : String) (newLog : List MessageRecord)
    (eid? : Option String) (ts : Nat)
    (hm : (alookup db.metas (npk, sid)).isSome = true) :
    alookup (commitSave db npk sid newLog eid? ts).logs (npk, sid) = some newLog ∧
    ∃ meta, alookup (commitSave db npk sid newLog eid? ts).metas (npk, sid) = some meta ∧
      meta.messageCount = newLog.length := by
  simp only [commitSave]
  cases eid? with
  | none =>
    simp only
    split
    · exact ⟨alookup_aset_self _ _ _, _, alookup_aset_self _ _ _, rfl⟩
    · rename_i hnone
      rw [hnone] at hm
      cases hm
  | some eid =>
    simp only
    split
    · exact ⟨alookup_aset_self _ _ _, _, alookup_aset_self _ _ _, rfl⟩
    · rename_i hnone
      rw [hnone] at hm
      cases hm

/-- The log cap holds unconditionally after truncation. -/
theorem truncate1000_le (l : List MessageRecord) : (truncate1000 l).length ≤ 1000 := by
  unfold truncate1000
  split
  · rw [List.length_drop]
    omega
  · omega

/-- Truncation drops from the front: the appended record survives at the
tail. -/
theorem truncate1000_concat_getLast (l : List MessageRecord) (r : MessageRecord) :
    (truncate1000 (l ++ [r])).getLast? = some r := by
  unfold truncate1000
  split
  · rename_i hlen
    rw [List.length_append] at hlen
    simp only [List.length_append, List.length_singleton]
    rw [List.drop_append_of_le_length (by omega)]
    exact List.getLast?_concat _
  · exact List.getLast?_concat _

/-- C6: after every `saveMessage` call that stores a record, the stored
log of the written session holds at most 1000 records (the 1000 most
recent — any overflow is dropped from the front, and the new record is
retained at the tail), and the session metadata's `messageCount` equals
the stored log length (as does the returned count).  `sanitizePubkey` is
idempotent in JS (trim and lowercase); the hypothesis records this. -/
theorem C6_log_cap_and_count (db : ConvDb) (pk msg : String) (isBot : Bool)
    (md : SaveMeta) (now : Nat) (fresh : String) (conv1 : ConvDb) (sid : String)
    (ts cnt : Nat)
    (hidem : sanitizePubkey (sanitizePubkey pk) = sanitizePubkey pk)
    (h : saveMessage db pk msg isBot md now fresh = .ok (conv1, .saved sid ts cnt)) :
    ∃ log meta,
      alookup conv1.logs (sanitizePubkey pk, sid) = some log ∧
      log.length ≤ 1000 ∧
      alookup conv1.metas (sanitizePubkey pk, sid) = some meta ∧
      meta.messageCount = log.length ∧
      cnt = log.length ∧
      (∃ r, log.getLast? = some r ∧ r.message = msg ∧ r.isFromBot = isBot) := by
  simp only [saveMessage] at h
  split at h
  · cases h
  · repeat' split at h
    all_goals cases h
    all_goals rename_i eo hens
    all_goals obtain ⟨m0, hm0⟩ := ensureSession_meta _ _ _ _ _ _ _ _ _ hens
    all_goals rw [hidem] at hm0
    all_goals
      obtain ⟨hlog, meta, hmeta, hcnt⟩ :=
        commitSave_self eo.db (sanitizePubkey pk) eo.sessionId _ _ _ (by rw [hm0]; rfl)
    all_goals
      exact ⟨_, meta, hlog, truncate1000_le _, hmeta, hcnt, rfl,
        _, truncate1000_concat_getLast _ _, rfl, rfl⟩

/-- C6 witness: saving one message into the empty store yields a
one-entry log with `messageCount = 1`. -/
theorem C6_log_cap_and_count_witness :
    ∃ log meta,
      alookup c6SavedDb.logs (sanitizePubkey "pk", "s1") = some log ∧
      log.length ≤ 1000 ∧
      alookup c6SavedDb.metas (sanitizePubkey "pk", "s1") = some meta ∧
      meta.messageCount = log.length ∧
      1 = log.length ∧
      (∃ r, log.getLast? = some r ∧ r.message = "hi" ∧ r.isFromBot = false) :=
  C6_log_cap_and_count ConvDb.empty "pk" "hi" false SaveMeta.default0 5 "s1"
    c6SavedDb "s1" 5 1 (by decide) (by rfl)

/-! ## Counting and marker lemmas for the idempotency claim -/

/-- Replacing one log entry changes the record count by the difference of
the entry counts. -/
theorem countSum_aset (logs : List ((String × String) × List MessageRecord))
    (k : String × String) (v : List MessageRecord) (x : String) :
    ((aset logs k v).map (fun kv => cntEv x kv.2)).sum
        + cntEv x ((alookup logs k).getD [])
      = (logs.map (fun kv => cntEv x kv.2)).sum + cntEv x v := by
  induction logs with
  | nil => simp [aset, alookup, cntEv]
  | cons kv rest ih =>
    obtain ⟨k0, w⟩ := kv
    by_cases hk : k0 = k
    · subst hk
      simp [aset, alookup]
      omega
    · simp [aset, hk, alookup]
      omega

theorem cntEv_append (x : String) (l1 l2 : List MessageRecord) :
    cntEv x (l1 ++ l2) = cntEv x l1 + cntEv x l2 := by
  simp [cntEv]

theorem cntEv_truncate_le (x : String) (l : List MessageRecord) :
    cntEv x (truncate1000 l) ≤ cntEv x l := by
  unfold truncate1000
  split
  · exact List.Sublist.length_le (List.Sublist.filter _ (List.drop_sublist _ _))
  · exact le_rfl

theorem cntEv_singleton (x : String) (r : MessageRecord) :
    cntEv x [r] = if r.eventId = some x then 1 else 0 := by
  simp only [cntEv, List.filter]
  split <;> rename_i h
  · simp_all
  · simp_all

/-- `ensureSession` never touches the processed-event markers. -/
theorem ensureSession_markers (db : ConvDb) (pubkey : String) (rsid : Option String)
    (source label : Option String) (touch : Bool) (now : Nat) (freshId : String)
    (eo : EnsureOut)
    (h : ensureSession db pubkey rsid source label touch now freshId = .ok eo) :
    eo.db.markers = db.markers := by
  simp only [ensureSession] at h
  split at h
  · cases h
  · split at h
    · repeat' split at h
      all_goals cases h
      all_goals rfl
    · repeat' split at h
      all_goals cases h
      all_goals rfl

/-- Storing an empty log cannot increase the record count. -/
theorem countSum_aset_nil_le (logs : List ((String × String) × List MessageRecord))
    (k : String × String) (x : String) :
    ((aset logs k []).map (fun kv => cntEv x kv.2)).sum
      ≤ (logs.map (fun kv => cntEv x kv.2)).sum := by
  have h := countSum_aset logs k [] x
  simp only [cntEv, List.filter_nil, List.length_nil, Nat.add_zero] at h ⊢
  omega

/-- `ensureSession` can only shrink the per-event record counts (its only
log write stores an empty log). -/
theorem ensureSession_count (db : ConvDb) (pubkey : String) (rsid : Option String)
    (source label : Option String) (touch : Bool) (now : Nat) (freshId : String)
    (eo : EnsureOut) (x : String)
    (h : ensureSession db pubkey rsid source label touch now freshId = .ok eo) :
    countRecordsWithEvent eo.db x ≤ countRecordsWithEvent db x := by
  simp only [ensureSession] at h
  split at h
  · cases h
  · split at h
    · repeat' split at h
      all_goals cases h
      all_goals exact countSum_aset_nil_le _ _ _
    · repeat' split at h
      all_goals cases h
      all_goals exact le_rfl

/-- The markers stored by `commitSave`. -/
theorem commitSave_markers (db : ConvDb) (npk sid : String)
    (newLog : List MessageRecord) (eid? : Option String) (ts : Nat) (x : String) :
    alookup (commitSave db npk sid newLog eid? ts).markers x
      = match eid? with
        | some eid =>
          if eid = x then some { sessionId := sid, timestamp := ts }
          else alookup db.markers x
        | none => alookup db.markers x := by
  simp only [commitSave]
  cases eid? with
  | none =>
    simp only
    split <;> rfl
  | some eid =>
    simp only
    by_cases hx : eid = x
    · subst hx
      rw [if_pos rfl]
      split <;> exact alookup_aset_self _ _ _
    · rw [if_neg hx]
      split <;> exact alookup_aset_ne _ _ _ _ hx

/-- The per-event record count after `commitSave`. -/
theorem commitSave_count (db : ConvDb) (npk sid : String)
    (newLog : List MessageRecord) (eid? : Option String) (ts : Nat) (x : String) :
    countRecordsWithEvent (commitSave db npk sid newLog eid? ts) x
        + cntEv x ((alookup db.logs (npk, sid)).getD [])
      = countRecordsWithEvent db x + cntEv x newLog := by
  simp only [commitSave, countRecordsWithEvent]
  have hbase := countSum_aset db.logs (npk, sid) newLog x
  cases eid? with
  | none =>
    simp only
    split <;> simpa using hbase
  | some eid =>
    simp only
    split <;> simpa using hbase

/-- A `saveMessage` whose event id already has a processed-event marker
returns `duplicate` and leaves the store untouched. -/
theorem saveMessage_dup (db : ConvDb) (pk msg : String) (b : Bool) (md : SaveMeta)
    (now : Nat) (fresh : String) (eid : String) (m : Marker)
    (hpk : ¬ sanitizePubkey pk = "")
    (heid : jsOrNullStr md.eventId = some eid)
    (hm : alookup db.markers eid = some m) :
    saveMessage db pk msg b md now fresh = .ok (db, .duplicate m.sessionId m.timestamp) := by
  simp only [saveMessage, if_neg hpk, heid, hm]

/-- The observable footprint of any successful `saveMessage`: the
per-event record count grows by at most one (and only for the saved
event id), existing markers survive, unrelated event ids see no marker
change and no count growth, and a stored record with an event id leaves
its marker behind. -/
theorem saveMessage_effects (db : ConvDb) (pk msg : String) (b : Bool) (md : SaveMeta)
    (now : Nat) (fresh : String) (db' : ConvDb) (res : SaveResult) (x : String)
    (h : saveMessage db pk msg b md now fresh = .ok (db', res)) :
    countRecordsWithEvent db' x
        ≤ countRecordsWithEvent db x
          + (if jsOrNullStr md.eventId = some x then 1 else 0) ∧
    ((alookup db.markers x).isSome = true → (alookup db'.markers x).isSome = true) ∧
    (jsOrNullStr md.eventId ≠ some x →
      alookup db'.markers x = alookup db.markers x ∧
      countRecordsWithEvent db' x ≤ countRecordsWithEvent db x) ∧
    (∀ sid ts cnt, res = .saved sid ts cnt → jsOrNullStr md.eventId = some x →
      alookup db'.markers x = some { sessionId := sid, timestamp := ts }) ∧
    (∀ sid ts, res = .duplicate sid ts → db' = db) := by
  have hsaved :
      ∀ (eo : EnsureOut) (eid? : Option String),
        jsOrNullStr md.eventId = eid? →
        ensureSession db (sanitizePubkey pk) md.sessionId
          (match jsOrNullStr md.messageSource with
            | some s => some s
            | none => kindSource md.eventKind) md.sessionLabel false now fresh = .ok eo →
        ∀ (newLog : List MessageRecord) (ts : Nat),
        newLog = truncate1000 (((alookup eo.db.logs (sanitizePubkey pk,
            eo.sessionId)).getD [])
          ++ [buildRecord (sanitizePubkey pk) eo.sessionId msg b md ts]) →
        countRecordsWithEvent (commitSave eo.db (sanitizePubkey pk) eo.sessionId newLog
            eid? ts) x
            ≤ countRecordsWithEvent db x
              + (if jsOrNullStr md.eventId = some x then 1 else 0) ∧
        ((alookup db.markers x).isSome = true →
          (alookup (commitSave eo.db (sanitizePubkey pk) eo.sessionId newLog
              eid? ts).markers x).isSome = true) ∧
        (jsOrNullStr md.eventId ≠ some x →
          alookup (commitSave eo.db (sanitizePubkey pk) eo.sessionId newLog
              eid? ts).markers x = alookup db.markers x ∧
          countRecordsWithEvent (commitSave eo.db (sanitizePubkey pk) eo.sessionId newLog
              eid? ts) x ≤ countRecordsWithEvent db x) ∧
        (jsOrNullStr md.eventId = some x →
          alookup (commitSave eo.db (sanitizePubkey pk) eo.sessionId newLog
              eid? ts).markers x
            = some { sessionId := eo.sessionId, timestamp := ts }) := by
    intro eo eid? heid hens newLog ts hnew
    have hmark := commitSave_markers eo.db (sanitizePubkey pk) eo.sessionId newLog eid? ts x
    have hcount := commitSave_count eo.db (sanitizePubkey pk) eo.sessionId newLog eid? ts x
    have hemk := ensureSession_markers _ _ _ _ _ _ _ _ _ hens
    have hecnt := ensureSession_count _ _ _ _ _ _ _ _ _ x hens
    have hnewle : cntEv x newLog
        ≤ cntEv x ((alookup eo.db.logs (sanitizePubkey pk, eo.sessionId)).getD [])
          + (if jsOrNullStr md.eventId = some x then 1 else 0) := by
      rw [hnew]
      calc cntEv x (truncate1000 _) ≤ _ := cntEv_truncate_le _ _
        _ = _ := cntEv_append _ _ _
        _ ≤ _ := by
          rw [cntEv_singleton]
          simp only [buildRecord]
          omega
    refine ⟨by omega, ?_, ?_, ?_⟩
    · intro hsome
      rw [hmark, hemk]
      cases eid? with
      | none => exact hsome
      | some eid =>
        by_cases hx : eid = x
        · simp [hx]
        · simp only [if_neg hx]
          exact hsome
    · intro hne
      subst heid
      constructor
      · rw [hmark, hemk]
        cases hjs : jsOrNullStr md.eventId with
        | none => rfl
        | some eid =>
          have hx : ¬ eid = x := by
            rw [hjs] at hne
            simpa using hne
          dsimp only
          rw [if_neg hx]
      · have hz : (if jsOrNullStr md.eventId = some x then 1 else 0) = 0 := by
          simp [hne]
        omega
    · intro hx
      subst heid
      rw [hmark, hx]
      simp
  simp only [saveMessage] at h
  split at h
  · cases h
  · rename_i hpk
    split at h
    · rename_i m heq1
      cases h
      refine ⟨le_self_add, fun hs => hs, fun _ => ⟨rfl, le_rfl⟩, ?_, fun _ _ _ => rfl⟩
      intro sid ts cnt hres
      cases hres
    · rename_i heq1
      split at h
      · cases h
      · rename_i eo hens
        cases h
        have hres := hsaved eo (jsOrNullStr md.eventId) rfl hens
          (truncate1000 (((alookup eo.db.logs (sanitizePubkey pk, eo.sessionId)).getD [])
            ++ [buildRecord (sanitizePubkey pk) eo.sessionId msg b md
                  (md.timestamp.getD now)]))
          (md.timestamp.getD now) rfl
        refine ⟨hres.1, hres.2.1, hres.2.2.1, ?_, ?_⟩
        · intro sid ts cnt hres2 hxx
          cases hres2
          exact hres.2.2.2 hxx
        · intro sid ts hres2
          cases hres2

/-- `ensureSession` cannot throw when the sanitized pubkey is
non-empty. -/
theorem ensureSession_ne_error (db : ConvDb) (p : String) (rsid : Option String)
    (source label : Option String) (touch : Bool) (now : Nat) (freshId : String)
    (err : String) (hp : ¬ sanitizePubkey p = "") :
    ensureSession db p rsid source label touch now freshId ≠ .error err := by
  simp only [ensureSession, if_neg hp]
  split <;> simp

/-- `saveMessage` cannot throw when the sanitized pubkey is non-empty
(using that sanitizing is idempotent). -/
theorem saveMessage_ne_error (db : ConvDb) (pk msg : String) (b : Bool) (md : SaveMeta)
    (now : Nat) (fresh : String) (err : String)
    (hpk : ¬ sanitizePubkey pk = "")
    (hidem : sanitizePubkey (sanitizePubkey pk) = sanitizePubkey pk) :
    saveMessage db pk msg b md now fresh ≠ .error err := by
  simp only [saveMessage, if_neg hpk]
  split
  · simp
  · split
    · rename_i heq
      exact absurd heq (ensureSession_ne_error _ _ _ _ _ _ _ _ _ (by rw [hidem]; exact hpk))
    · simp

/-- Every effect counter of the post-save phase is at most one. -/
theorem processAfterSave_counters (w2 : World) (e : Event) (env : ProcEnv)
    (sid : Option String) (content : String) :
    (processAfterSave w2 e env sid content).2.aiCalls ≤ 1 ∧
    (processAfterSave w2 e env sid content).2.replies ≤ 1 ∧
    (processAfterSave w2 e env sid content).2.debits ≤ 1 := by
  simp only [processAfterSave]
  repeat' split
  all_goals simp [errorEffects, Effects.zero]

/-- The post-save phase preserves processed-event markers and never
increases the record count of an event id distinct from the reply event
id (its log writes carry either no event id or the reply id). -/
theorem processAfterSave_markers_count (w2 : World) (e : Event) (env : ProcEnv)
    (sid : Option String) (content : String) (x : String)
    (hx2 : env.replyEventId ≠ x) :
    ((alookup w2.conv.markers x).isSome = true →
      (alookup (processAfterSave w2 e env sid content).1.conv.markers x).isSome = true) ∧
    countRecordsWithEvent (processAfterSave w2 e env sid content).1.conv x
      ≤ countRecordsWithEvent w2.conv x := by
  have hne3 : jsOrNullStr (some env.replyEventId) ≠ some x := by
    simp only [jsOrNullStr]
    split
    · simp
    · simpa using hx2
  have hnone : (jsOrNullStr none : Option String) ≠ some x := by simp [jsOrNullStr]
  simp only [processAfterSave]
  repeat' split
  all_goals
    first
      | exact ⟨fun hs => hs, le_rfl⟩
      | (rename_i conv2 heq
         obtain ⟨-, -, hu, -⟩ := saveMessage_effects _ _ _ _ _ _ _ _ _ x heq
         simp only [botSaveMeta] at hu
         obtain ⟨hmeq, hcle⟩ := hu (by first | exact hnone | exact hne3)
         exact ⟨fun hs => by rw [hmeq]; exact hs, hcle⟩)

/-- With insufficient balance, the post-save phase makes no AI call, no
debit, and leaves the zap store untouched. -/
theorem processAfterSave_noai (w2 : World) (e : Event) (env : ProcEnv)
    (sid : Option String) (content : String)
    (hlt : w2.zap.getBalance e.pubkey < (if e.kind = 4 then 1 else 2)) :
    (processAfterSave w2 e env sid content).2.aiCalls = 0 ∧
    (processAfterSave w2 e env sid content).2.debits = 0 ∧
    (processAfterSave w2 e env sid content).1.zap = w2.zap := by
  simp only [processAfterSave]
  repeat' split
  all_goals exact ⟨rfl, rfl, rfl⟩

/-- `deductFromBalance` preserves non-negative balances (it refuses any
deduction the stored balance does not cover). -/
theorem deduct_nonneg (db : ZapDb) (pk : String) (amt : Int) (now : Nat)
    (h : NonNegBal db = true) :
    NonNegBal (db.deductFromBalance pk amt now).1 = true := by
  simp only [ZapDb.deductFromBalance]
  split
  · exact h
  · rename_i hlt
    simp only [NonNegBal, List.all_eq_true] at h ⊢
    intro kv hkv
    rcases mem_aset _ _ _ _ hkv with hmem | hmem
    · subst hmem
      rcases hcur : alookup db.balances pk with - | r
      · simp only [hcur, Option.getD, jsLtNum, decide_eq_true_eq, not_lt] at hlt
        simp only [hcur, Option.getD, jsSub, balOk, decide_eq_true_eq]
        omega
      · have hro : balOk r.balance = true := h (pk, r) (alookup_mem _ _ _ hcur)
        rcases hb : r.balance with - | v
        · rw [hb] at hro; simp [balOk] at hro
        · simp only [balOk, decide_eq_true_eq] at hro
          rw [hb] at hro
          simp only [decide_eq_true_eq] at hro
          simp only [hcur, Option.getD, hb, jsLtNum, decide_eq_true_eq, not_lt] at hlt
          simp only [hcur, Option.getD, hb, jsSub, balOk, decide_eq_true_eq]
          omega
    · exact h kv hmem

/-- Transport of `deduct_nonneg` along a pair-destructuring equation. -/
theorem deduct_nonneg_pair (db : ZapDb) (pk : String) (amt : Int) (now : Nat)
    (z : ZapDb) (r : DeductResult)
    (h : NonNegBal db = true) (he : db.deductFromBalance pk amt now = (z, r)) :
    NonNegBal z = true := by
  have h2 := deduct_nonneg db pk amt now h
  rw [he] at h2
  exact h2

/-- The post-save phase preserves the non-negative-balance invariant:
the only zap-store write it performs is the guarded deduction. -/
theorem processAfterSave_nonneg (w2 : World) (e : Event) (env : ProcEnv)
    (sid : Option String) (content : String)
    (h : NonNegBal w2.zap = true) :
    NonNegBal (processAfterSave w2 e env sid content).1.zap = true := by
  simp only [processAfterSave]
  repeat' split
  all_goals
    first
      | exact h
      | exact deduct_nonneg_pair w2.zap e.pubkey _ env.now _ _ h (by assumption)

/-- With the processed-event marker for `e.id` already present, one run of
`processMessage` is a no-op on every observable this development tracks:
zero effects, conversation store unchanged, zap store unchanged. -/
theorem processMessage_marker_noop (w : World) (e : Event) (env : ProcEnv)
    (hpk : sanitizePubkey e.pubkey = e.pubkey) (hne : e.pubkey ≠ "")
    (hid : e.id ≠ "")
    (hm : (alookup w.conv.markers e.id).isSome = true) :
    (processMessage w e env).2 = Effects.zero ∧
    (processMessage w e env).1.conv = w.conv ∧
    (processMessage w e env).1.zap = w.zap := by
  have hpk2 : ¬ sanitizePubkey e.pubkey = "" := by rw [hpk]; exact hne
  obtain ⟨m, hm2⟩ := Option.isSome_iff_exists.mp hm
  have heid : ∀ (st : Option String) (um : Option UserMeta),
      jsOrNullStr (userSaveMeta e st um).eventId = some e.id := by
    intro st um
    simp [userSaveMeta, jsOrNullStr, hid]
  have hdup : ∀ (msg : String) (b : Bool) (st : Option String) (um : Option UserMeta)
      (now : Nat) (fresh : String),
      saveMessage w.conv e.pubkey msg b (userSaveMeta e st um) now fresh
        = .ok (w.conv, .duplicate m.sessionId m.timestamp) := by
    intro msg b st um now fresh
    exact saveMessage_dup _ _ _ _ _ _ _ _ m hpk2 (heid _ _) hm2
  simp only [processMessage, hdup]
  repeat' split
  all_goals exact ⟨rfl, rfl, rfl⟩

/-- The inbound user message is always saved under the event's own id. -/
theorem userMeta_eventId (e : Event) (hid : e.id ≠ "") (st : Option String)
    (um : Option UserMeta) :
    jsOrNullStr (userSaveMeta e st um).eventId = some e.id := by
  simp [userSaveMeta, jsOrNullStr, hid]

/-- One run of `processMessage`: either it stops before (or at) the
duplicate check, producing no countable effects and leaving the
conversation store unchanged, or it saves the user message, after which
the processed-event marker is set and at most one new record with the
event id exists, with every counter at most one. -/
theorem processMessage_fresh (w : World) (e : Event) (env : ProcEnv)
    (hid : e.id ≠ "") (hre : env.replyEventId ≠ e.id) :
    ((processMessage w e env).2.aiCalls = 0 ∧ (processMessage w e env).2.replies = 0 ∧
     (processMessage w e env).2.debits = 0 ∧ (processMessage w e env).1.conv = w.conv)
    ∨ ((processMessage w e env).2.aiCalls ≤ 1 ∧ (processMessage w e env).2.replies ≤ 1 ∧
       (processMessage w e env).2.debits ≤ 1 ∧
       (alookup (processMessage w e env).1.conv.markers e.id).isSome = true ∧
       countRecordsWithEvent (processMessage w e env).1.conv e.id
         ≤ countRecordsWithEvent w.conv e.id + 1) := by
  simp only [processMessage]
  repeat' split
  all_goals
    first
      | exact Or.inl ⟨rfl, rfl, rfl, rfl⟩
      | (refine Or.inl ⟨rfl, rfl, rfl, ?_⟩
         obtain ⟨-, -, -, -, hdup⟩ :=
           saveMessage_effects _ _ _ _ _ _ _ _ _ e.id (by assumption)
         exact hdup _ _ rfl)
      | (obtain ⟨hcnt, -, -, hsv, -⟩ :=
           saveMessage_effects _ _ _ _ _ _ _ _ _ e.id (by assumption)
         rw [if_pos (userMeta_eventId e hid _ _)] at hcnt
         have hm1 := hsv _ _ _ rfl (userMeta_eventId e hid _ _)
         refine Or.inr ⟨(processAfterSave_counters _ _ _ _ _).1,
           (processAfterSave_counters _ _ _ _ _).2.1,
           (processAfterSave_counters _ _ _ _ _).2.2,
           (processAfterSave_markers_count _ e env _ _ e.id hre).1
             (Option.isSome_iff_exists.mpr ⟨_, hm1⟩),
           le_trans (processAfterSave_markers_count _ e env _ _ e.id hre).2 hcnt⟩)

/-- Unfolding equation for `processMany` on a cons cell. -/
theorem processMany_cons (w : World) (e : Event) (env : ProcEnv) (rest : List ProcEnv) :
    processMany w e (env :: rest) =
      ((processMany (processMessage w e env).1 e rest).1,
       { aiCalls := (processMessage w e env).2.aiCalls
           + (processMany (processMessage w e env).1 e rest).2.aiCalls,
         replies := (processMessage w e env).2.replies
           + (processMany (processMessage w e env).1 e rest).2.replies,
         errorReplies := (processMessage w e env).2.errorReplies
           + (processMany (processMessage w e env).1 e rest).2.errorReplies,
         balancePublishes := (processMessage w e env).2.balancePublishes
           + (processMany (processMessage w e env).1 e rest).2.balancePublishes,
         debits := (processMessage w e env).2.debits
           + (processMany (processMessage w e env).1 e rest).2.debits }) := rfl

/-- Once the processed-event marker is present, any further sequence of
deliveries generates no AI call, no reply and no debit, and leaves the
conversation store untouched. -/
theorem processMany_noop (e : Event) (envs : List ProcEnv) (w : World)
    (hpk : sanitizePubkey e.pubkey = e.pubkey) (hne : e.pubkey ≠ "") (hid : e.id ≠ "")
    (hm : (alookup w.conv.markers e.id).isSome = true) :
    (processMany w e envs).2.aiCalls = 0 ∧ (processMany w e envs).2.replies = 0 ∧
    (processMany w e envs).2.debits = 0 ∧ (processMany w e envs).1.conv = w.conv := by
  induction envs generalizing w with
  | nil => exact ⟨rfl, rfl, rfl, rfl⟩
  | cons env rest ih =>
    obtain ⟨heff, hconv, hzap⟩ := processMessage_marker_noop w e env hpk hne hid hm
    have hm1 : (alookup (processMessage w e env).1.conv.markers e.id).isSome = true := by
      rw [hconv]; exact hm
    obtain ⟨ha, hr, hdd, hc⟩ := ih (processMessage w e env).1 hm1
    rw [processMany_cons]
    refine ⟨?_, ?_, ?_, ?_⟩
    · show (processMessage w e env).2.aiCalls
          + (processMany (processMessage w e env).1 e rest).2.aiCalls = 0
      rw [heff, ha]
      rfl
    · show (processMessage w e env).2.replies
          + (processMany (processMessage w e env).1 e rest).2.replies = 0
      rw [heff, hr]
      rfl
    · show (processMessage w e env).2.debits
          + (processMany (processMessage w e env).1 e rest).2.debits = 0
      rw [heff, hdd]
      rfl
    · show (processMany (processMessage w e env).1 e rest).1.conv = w.conv
      rw [hc, hconv]

/-- From a state with no processed-event marker, any sequence of
deliveries of the event generates at most one AI call, one reply and one
debit, and adds at most one log record carrying the event id. -/
theorem processMany_fresh (e : Event)
    (hpk : sanitizePubkey e.pubkey = e.pubkey) (hne : e.pubkey ≠ "") (hid : e.id ≠ "") :
    ∀ (envs : List ProcEnv) (w : World),
      (∀ env ∈ envs, env.replyEventId ≠ e.id) →
      (alookup w.conv.markers e.id).isSome = false →
      (processMany w e envs).2.aiCalls ≤ 1 ∧ (processMany w e envs).2.replies ≤ 1 ∧
      (processMany w e envs).2.debits ≤ 1 ∧
      countRecordsWithEvent (processMany w e envs).1.conv e.id
        ≤ countRecordsWithEvent w.conv e.id + 1 := by
  intro envs
  induction envs with
  | nil =>
    intro w _ _
    exact ⟨Nat.zero_le 1, Nat.zero_le 1, Nat.zero_le 1, Nat.le_succ _⟩
  | cons env rest ih =>
    intro w hres hm
    have hre : env.replyEventId ≠ e.id := hres env (List.mem_cons_self env rest)
    have hres2 : ∀ env2 ∈ rest, env2.replyEventId ≠ e.id :=
      fun env2 h2 => hres env2 (List.mem_cons_of_mem env h2)
    rcases processMessage_fresh w e env hid hre with
      ⟨ha, hr, hdd, hc⟩ | ⟨ha, hr, hdd, hmk, hcn⟩
    · have hm1 : (alookup (processMessage w e env).1.conv.markers e.id).isSome = false := by
        rw [hc]; exact hm
      obtain ⟨ha2, hr2, hd2, hc2⟩ := ih (processMessage w e env).1 hres2 hm1
      rw [processMany_cons]
      refine ⟨?_, ?_, ?_, ?_⟩
      · show (processMessage w e env).2.aiCalls
            + (processMany (processMessage w e env).1 e rest).2.aiCalls ≤ 1
        omega
      · show (processMessage w e env).2.replies
            + (processMany (processMessage w e env).1 e rest).2.replies ≤ 1
        omega
      · show (processMessage w e env).2.debits
            + (processMany (processMessage w e env).1 e rest).2.debits ≤ 1
        omega
      · show countRecordsWithEvent (processMany (processMessage w e env).1 e rest).1.conv e.id
            ≤ countRecordsWithEvent w.conv e.id + 1
        rw [hc] at hc2
        exact hc2
    · obtain ⟨ha2, hr2, hd2, hc2⟩ :=
        processMany_noop e rest (processMessage w e env).1 hpk hne hid hmk
      rw [processMany_cons]
      refine ⟨?_, ?_, ?_, ?_⟩
      · show (processMessage w e env).2.aiCalls
            + (processMany (processMessage w e env).1 e rest).2.aiCalls ≤ 1
        omega
      · show (processMessage w e env).2.replies
            + (processMany (processMessage w e env).1 e rest).2.replies ≤ 1
        omega
      · show (processMessage w e env).2.debits
            + (processMany (processMessage w e env).1 e rest).2.debits ≤ 1
        omega
      · show countRecordsWithEvent (processMany (processMessage w e env).1 e rest).1.conv e.id
            ≤ countRecordsWithEvent w.conv e.id + 1
        rw [hc2]
        exact hcn

/-- C1 (amended): balances stay non-negative provided every credited
amount is non-negative.  (a) `addToBalance` with a non-negative amount
preserves the non-negative-balance invariant; (b) when the sender's
balance is below the message cost, `processMessage` makes no AI call and
no debit and leaves the zap store untouched (the debit is rejected before
the AI call); (c) `processMessage` preserves the non-negative-balance
invariant of the zap store. -/
theorem C1_balance_nonneg :
    (∀ (db : ZapDb) (pk : String) (a : Int) (now : Nat),
        0 ≤ a → NonNegBal db = true →
        NonNegBal (db.addToBalance pk (some a) now).1 = true) ∧
    (∀ (w : World) (e : Event) (env : ProcEnv),
        w.zap.getBalance e.pubkey < (if e.kind = 4 then 1 else 2) →
        (processMessage w e env).2.aiCalls = 0 ∧
        (processMessage w e env).2.debits = 0 ∧
        (processMessage w e env).1.zap = w.zap) ∧
    (∀ (w : World) (e : Event) (env : ProcEnv),
        NonNegBal w.zap = true →
        NonNegBal (processMessage w e env).1.zap = true) := by
  refine ⟨?_, ?_, ?_⟩
  · intro db pk a now ha hdb
    simp only [ZapDb.addToBalance]
    simp only [NonNegBal, List.all_eq_true] at hdb ⊢
    intro kv hkv
    rcases mem_aset _ _ _ _ hkv with hmem | hmem
    · subst hmem
      rcases hcur : alookup db.balances pk with - | r
      · simp only [hcur, Option.getD, jsOrZero, jsAdd, balOk, decide_eq_true_eq]
        omega
      · have hro := hdb (pk, r) (alookup_mem _ _ _ hcur)
        rcases hb : r.balance with - | v
        · rw [hb] at hro; simp [balOk] at hro
        · rw [hb] at hro
          simp only [balOk, decide_eq_true_eq] at hro
          simp only [hcur, Option.getD, hb, jsOrZero, jsAdd, balOk, decide_eq_true_eq]
          omega
    · exact hdb kv hmem
  · intro w e env hlt
    simp only [processMessage]
    repeat' split
    all_goals
      first
        | exact ⟨rfl, rfl, rfl⟩
        | exact processAfterSave_noai _ e env _ _ hlt
  · intro w e env h
    simp only [processMessage]
    repeat' split
    all_goals
      first
        | exact h
        | exact processAfterSave_nonneg _ e env _ _ h

/-- Witness for C1 at concrete inputs: crediting 21 sats into an empty
store keeps balances non-negative; with no balance record the processor
makes no AI call; processing a funded DM keeps balances non-negative. -/
theorem C1_balance_nonneg_witness :
    (0 ≤ (21 : Int) ∧ NonNegBal { zaps := [], balances := [] } = true ∧
     NonNegBal (ZapDb.addToBalance { zaps := [], balances := [] } "pk" (some 21) 5).1 = true) ∧
    (dmWorldZero.zap.getBalance dmEvent.pubkey < (if dmEvent.kind = 4 then 1 else 2) ∧
     (processMessage dmWorldZero dmEvent dmEnv).2.aiCalls = 0) ∧
    (NonNegBal dmWorld.zap = true ∧
     NonNegBal (processMessage dmWorld dmEvent dmEnv).1.zap = true) :=
  ⟨⟨by decide, by decide,
    C1_balance_nonneg.1 { zaps := [], balances := [] } "pk" 21 5 (by decide) (by decide)⟩,
   ⟨by decide, (C1_balance_nonneg.2.1 dmWorldZero dmEvent dmEnv (by decide)).1⟩,
   ⟨by decide, C1_balance_nonneg.2.2 dmWorld dmEvent dmEnv (by decide)⟩⟩

/-- C2: replaying deliveries of one event any number of times produces at
most one AI call, at most one reply, at most one debit, and at most one
stored log record carrying the event id, starting from a store with no
processed-event marker and no such record; moreover once the marker is
present a delivery is a complete no-op (aborting before the balance
check, the AI call and the reply publish), with zero effects and both
stores unchanged. -/
theorem C2_idempotent_replay (e : Event) (envs : List ProcEnv) (w0 : World)
    (hpk : sanitizePubkey e.pubkey = e.pubkey) (hne : e.pubkey ≠ "") (hid : e.id ≠ "")
    (hres : ∀ env ∈ envs, env.replyEventId ≠ e.id)
    (hm0 : (alookup w0.conv.markers e.id).isSome = false)
    (hc0 : countRecordsWithEvent w0.conv e.id = 0) :
    (processMany w0 e envs).2.aiCalls ≤ 1 ∧
    (processMany w0 e envs).2.replies ≤ 1 ∧
    (processMany w0 e envs).2.debits ≤ 1 ∧
    countRecordsWithEvent (processMany w0 e envs).1.conv e.id ≤ 1 ∧
    (∀ (w : World) (env : ProcEnv) (m : Marker),
        alookup w.conv.markers e.id = some m →
        (processMessage w e env).2 = Effects.zero ∧
        (processMessage w e env).1.conv = w.conv ∧
        (processMessage w e env).1.zap = w.zap) := by
  obtain ⟨ha, hr, hd2, hc⟩ := processMany_fresh e hpk hne hid envs w0 hres hm0
  refine ⟨ha, hr, hd2, ?_, ?_⟩
  · rw [hc0] at hc
    simpa using hc
  · intro w env m hm
    exact processMessage_marker_noop w e env hpk hne hid (by rw [hm]; rfl)

/-- Witness for C2: two deliveries of the same funded DM, starting from a
marker-free store. -/
theorem C2_idempotent_replay_witness :
    (sanitizePubkey dmEvent.pubkey = dmEvent.pubkey ∧ dmEvent.pubkey ≠ "" ∧
     dmEvent.id ≠ "" ∧
     (∀ env ∈ [dmEnv, dmEnv], env.replyEventId ≠ dmEvent.id) ∧
     (alookup dmWorld.conv.markers dmEvent.id).isSome = false ∧
     countRecordsWithEvent dmWorld.conv dmEvent.id = 0) ∧
    ((processMany dmWorld dmEvent [dmEnv, dmEnv]).2.aiCalls ≤ 1 ∧
     (processMany dmWorld dmEvent [dmEnv, dmEnv]).2.replies ≤ 1 ∧
     (processMany dmWorld dmEvent [dmEnv, dmEnv]).2.debits ≤ 1 ∧
     countRecordsWithEvent (processMany dmWorld dmEvent [dmEnv, dmEnv]).1.conv
       dmEvent.id ≤ 1) :=
  ⟨⟨by decide, by decide, by decide, by decide, rfl, rfl⟩,
   (fun h =>
     ⟨h.1, h.2.1, h.2.2.1, h.2.2.2.1⟩)
   (C2_idempotent_replay dmEvent [dmEnv, dmEnv] dmWorld (by decide) (by decide)
     (by decide) (by decide) rfl rfl)⟩

end ZapAI
